import Mathlib

/-!
Shallow embedding of `src/flatten.rs`, the ZoKrates flattening pass, together
with proofs about its gadgets, its renaming policy and its output invariants.

Modelling choices:

* The field type parameter `T : Field` of the source is instantiated with
  `Rat`, an executable field supporting the operations the pass uses
  (`zero`, `one`, `from`, `pow`, subtraction, division, order comparison).
* Rust's `HashSet<String>` is modelled as a duplicate-free-by-construction
  `List String`, and `HashMap<String, String>` as an association list with
  overwriting insert; both preserve the observable behaviour (`contains`,
  `get`, `insert`).
* The source's recursion in `flatten_expression` is not structural (the `Pow`
  arm recurses on a freshly built expression with a smaller exponent, and the
  `IfElse` arm recurses on a freshly built arithmetic combination), so the
  executable model `flattenExprF` takes a fuel argument.  The wrapper
  `flatten_expression` passes the fuel `exprFuel e`, which is an upper bound
  on the recursion depth; `flattenExprF_no_out_of_fuel` below proves that
  this fuel never runs out, so the `OutOfFuel` error is unreachable and the
  model agrees with the always-terminating source on every input.
* `Condition` in the source is a two-constructor enum (`Lt`, `Eq`) holding two
  expressions; to keep all recursions structural it is embedded as a kind tag
  `CondKind` plus the two operand expressions (stored inline in the `IfElse`
  expression constructor, and as a `Condition` structure at the
  `flatten_condition` interface).  The source's `flatten_condition` returns a
  pair of `VariableReference` expressions; both its arms return plain
  references, so the model returns the two variable names.
* `absy.rs` is not among the sources; the three capabilities consumed from it
  (`is_linear`, `is_flattened`, `apply_substitution`) are modelled from the
  spec, as marked in their doc comments.
-/

inductive CondKind where
  | Lt
  | Eq
deriving DecidableEq, Repr

inductive Expression where
  | NumberLiteral (n : Rat)
  | VariableReference (name : String)
  | Add (l r : Expression)
  | Sub (l r : Expression)
  | Mult (l r : Expression)
  | Div (l r : Expression)
  | Pow (base exp : Expression)
  | IfElse (ck : CondKind) (cl cr : Expression) (consequent alternative : Expression)
deriving DecidableEq, Repr

/-- A relational condition between two expressions (`Condition<T>` in `absy`). -/
structure Condition where
  kind : CondKind
  lhs : Expression
  rhs : Expression
deriving DecidableEq, Repr

/-- Smart constructor matching `Condition::Lt(lhs, rhs)`. -/
def Condition.Lt (l r : Expression) : Condition := ⟨CondKind.Lt, l, r⟩

/-- Smart constructor matching `Condition::Eq(lhs, rhs)`. -/
def Condition.Eq (l r : Expression) : Condition := ⟨CondKind.Eq, l, r⟩

/-- Statements of the intermediate language.  `Compiler` is the
hint/witness-computation statement (`Statement::Compiler` in the source,
`Hint` in the spec); `Condition` is the constraint-equality statement. -/
inductive Statement where
  | Return (e : Expression)
  | Definition (name : String) (e : Expression)
  | Condition (l r : Expression)
  | Compiler (name : String) (e : Expression)
deriving DecidableEq, Repr

/-- A program: identifier, argument names, statement sequence (`Prog<T>`). -/
structure Prog where
  id : String
  arguments : List String
  statements : List Statement
deriving DecidableEq, Repr

/-- Modelled from the spec: `absy.rs` (not under `src/`) provides
`Expression::is_linear`.  The spec defines affine/linear as "a literal, a
variable reference, or — for Add/Sub — an affine combination thereof"
(data-model invariants, and the glossary entry for affine expressions). -/
def Expression.is_linear : Expression → Bool
  | .NumberLiteral _ => true
  | .VariableReference _ => true
  | .Add l r => l.is_linear && r.is_linear
  | .Sub l r => l.is_linear && r.is_linear
  | _ => false

/-- Modelled from the spec: `absy.rs` provides `Expression::is_flattened`,
described as the structural test that a node "is already in flattened form":
literals and variables are flattened, an Add/Sub of flattened operands is
flattened, a Mult/Div of affine operands is flattened, and `Pow`/`IfElse`
are never flattened. -/
def Expression.is_flattened : Expression → Bool
  | .NumberLiteral _ => true
  | .VariableReference _ => true
  | .Add l r => l.is_flattened && r.is_flattened
  | .Sub l r => l.is_flattened && r.is_flattened
  | .Mult l r => l.is_linear && r.is_linear
  | .Div l r => l.is_linear && r.is_linear
  | _ => false

/-- Association-list lookup (used for the substitution map and for witness
environments). -/
def lookupPair (m : List (String × String)) (k : String) : Option String :=
  match m with
  | [] => none
  | (k1, v) :: rest => if k1 = k then some v else lookupPair rest k

/-- Overwriting insert, the behaviour of `HashMap::insert`. -/
def insertPair (m : List (String × String)) (k v : String) : List (String × String) :=
  match m with
  | [] => [(k, v)]
  | (k1, v1) :: rest => if k1 = k then (k, v) :: rest else (k1, v1) :: insertPair rest k v

/-- Set insert, the behaviour of `HashSet::insert`. -/
def insertSet (s : List String) (x : String) : List String :=
  if s.contains x then s else s ++ [x]

/-- Chase the substitution map until the name has no entry; `fuel` bounds the
chain length (a chain through a map with `n` entries visits at most `n`
links, so the callers pass the map size). -/
def chaseSub (m : List (String × String)) : Nat → String → String
  | 0, n => n
  | fuel + 1, n =>
    match lookupPair m n with
    | none => n
    | some n1 => chaseSub m fuel n1

/-- Modelled from the spec: `absy.rs` provides
`Expression::apply_substitution`, which "rewrites variable-reference leaves
through a name→name mapping" such that "later unqualified references to the
original logical name resolve to the freshest renamed form", "handling the
case of three or more reassignments by chaining the mapping forward"; so a
variable reference follows the map until no further entry exists. -/
def Expression.apply_substitution (e : Expression) (m : List (String × String)) : Expression :=
  match e with
  | .NumberLiteral n => .NumberLiteral n
  | .VariableReference v => .VariableReference (chaseSub m m.length v)
  | .Add l r => .Add (l.apply_substitution m) (r.apply_substitution m)
  | .Sub l r => .Sub (l.apply_substitution m) (r.apply_substitution m)
  | .Mult l r => .Mult (l.apply_substitution m) (r.apply_substitution m)
  | .Div l r => .Div (l.apply_substitution m) (r.apply_substitution m)
  | .Pow b ex => .Pow (b.apply_substitution m) (ex.apply_substitution m)
  | .IfElse ck cl cr t a =>
    .IfElse ck (cl.apply_substitution m) (cr.apply_substitution m)
      (t.apply_substitution m) (a.apply_substitution m)

/-- The flattener state (`struct Flattener`).  The field `vars` models the
source field `variables` (a reserved word in Lean). -/
structure Flattener where
  bits : Nat
  vars : List String
  substitution : List (String × String)
  next_var_idx : Nat
deriving DecidableEq, Repr

/-- Constructor `Flattener::new(bits)`. -/
def Flattener.new (bits : Nat) : Flattener :=
  ⟨bits, [], [], 0⟩

/-- The synthesized symbol name `format!("sym_{}", idx)`. -/
def symName (n : Nat) : String :=
  "sym_" ++ toString n

/-- The bit-decomposition digit name `format!("{}_b{}", cond_result, i)`. -/
def bitName (c : String) (i : Nat) : String :=
  c ++ "_b" ++ toString i

/-- Error taxonomy of the pass.  The source aborts via `panic!` /
`unimplemented!`; the embedding surfaces the same conditions as error values.
`OutOfFuel` is not a source condition: it marks exhaustion of the recursion
fuel and is proved unreachable for the wrapper's fuel
(`flattenExprF_no_out_of_fuel`). -/
inductive FlattenError where
  | UnsupportedExponent
  | UnsupportedPowerBase
  | UnresolvableEquality
  | OutOfFuel
deriving DecidableEq, Repr

/-- Bump the fresh-symbol counter (`self.next_var_idx += 1`). -/
def Flattener.bump (f : Flattener) : Flattener :=
  ⟨f.bits, f.vars, f.substitution, f.next_var_idx + 1⟩

/-- Bind an expression to a fresh `sym_i` variable via an appended
`Definition` and return a reference to it (the repeated materialization block
of `flatten_expression`). -/
def materialize (f : Flattener) (stmts : List Statement) (e : Expression) :
    Flattener × List Statement × Expression :=
  (f.bump, stmts ++ [Statement.Definition (symName f.next_var_idx) e],
    Expression.VariableReference (symName f.next_var_idx))

/-- Operand treatment of the `Add`/`Sub`/`Div` arms: an affine operand is
kept inline, any other operand is materialized. -/
def bindLinear (f : Flattener) (stmts : List Statement) (e : Expression) :
    Flattener × List Statement × Expression :=
  if e.is_linear then (f, stmts, e) else materialize f stmts e

/-- Operand treatment of the `Mult` arm: as `bindLinear`, except that an
affine but `Sub`-shaped operand is also materialized (the deliberate
`if let Sub(..)` special case in the source). -/
def bindLinearMult (f : Flattener) (stmts : List Statement) (e : Expression) :
    Flattener × List Statement × Expression :=
  if e.is_linear then
    match e with
    | .Sub _ _ => materialize f stmts e
    | _ => (f, stmts, e)
  else materialize f stmts e

/-- The two's-complement-style recomposition expression the `Lt` gadget binds
to the diff symbol (lines 78-106 of the source): it starts from
`b0 + b1 * 2`, then for each `i` in `1..bits/2` adds
`b(2i) * 2^i + b(2i+1) * 2^i`, and finally adds
`b(bits-1) * (0 - 2^(bits-1))` in front. -/
def ltRecompose (cond_result : String) (bits : Nat) : Expression :=
  let expr := Expression.Add
    (Expression.VariableReference (bitName cond_result 0))
    (Expression.Mult (Expression.VariableReference (bitName cond_result 1))
      (Expression.NumberLiteral 2))
  let expr := (List.range' 1 (bits / 2 - 1)).foldl (fun acc i =>
    Expression.Add acc (Expression.Add
      (Expression.Mult (Expression.VariableReference (bitName cond_result (2 * i)))
        (Expression.NumberLiteral ((2 : Rat) ^ i)))
      (Expression.Mult (Expression.VariableReference (bitName cond_result (2 * i + 1)))
        (Expression.NumberLiteral ((2 : Rat) ^ i))))) expr
  Expression.Add
    (Expression.Mult (Expression.VariableReference (bitName cond_result (bits - 1)))
      (Expression.NumberLiteral (0 - (2 : Rat) ^ (bits - 1))))
    expr

/-- Everything the `Lt` arm of `flatten_condition` does after flattening the
two operands: bind both operands, define the diff, emit the `b = b * b`
digit statements, redefine the diff symbol as the recomposition, and define
the false indicator. -/
def ltGadget (f : Flattener) (stmts : List Statement) (lhsF rhsF : Expression) :
    Flattener × List Statement × String × String :=
  let lhs_name := symName f.next_var_idx
  let f := f.bump
  let stmts := stmts ++ [Statement.Definition lhs_name lhsF]
  let rhs_name := symName f.next_var_idx
  let f := f.bump
  let stmts := stmts ++ [Statement.Definition rhs_name rhsF]
  let cond_result := symName f.next_var_idx
  let f := f.bump
  let stmts := stmts ++ [Statement.Definition cond_result
    (Expression.Sub (Expression.VariableReference lhs_name)
      (Expression.VariableReference rhs_name))]
  let stmts := stmts ++ (List.range f.bits).map (fun i =>
    Statement.Definition (bitName cond_result i)
      (Expression.Mult (Expression.VariableReference (bitName cond_result i))
        (Expression.VariableReference (bitName cond_result i))))
  let stmts := stmts ++ [Statement.Definition cond_result (ltRecompose cond_result f.bits)]
  let cond_true := bitName cond_result (f.bits - 1)
  let cond_false := symName f.next_var_idx
  let f := f.bump
  let stmts := stmts ++ [Statement.Definition cond_false
    (Expression.Sub (Expression.NumberLiteral 1)
      (Expression.VariableReference cond_true))]
  (f, stmts, cond_true, cond_false)

/-- The five fresh symbols the `Eq` arm allocates before flattening `c`
(`name_c`, `name_d`, `name_1_d`, `name_c_d`, `name_w`). -/
def eqAlloc (f : Flattener) : Flattener × String × String × String × String × String :=
  (f.bump.bump.bump.bump.bump,
    symName f.next_var_idx, symName (f.next_var_idx + 1), symName (f.next_var_idx + 2),
    symName (f.next_var_idx + 3), symName (f.next_var_idx + 4))

/-- Everything the `Eq` arm of `flatten_condition` does after flattening
`lhs - rhs`: bind `c`, hint-assign `d` and `w`, define `1-d` and `c-d`, and
append the three algebraic constraints `c*d = 0`, `d*(1-d) = 0`,
`(c-d)*w = 1`. -/
def eqGadget (f : Flattener) (stmts : List Statement)
    (name_c name_d name_1_d name_c_d name_w : String) (c : Expression) :
    Flattener × List Statement × String × String :=
  let stmts := stmts ++
    [Statement.Definition name_c c,
     Statement.Compiler name_d
       (Expression.IfElse CondKind.Eq (Expression.VariableReference name_c)
         (Expression.NumberLiteral 0) (Expression.NumberLiteral 1)
         (Expression.NumberLiteral 0)),
     Statement.Definition name_1_d
       (Expression.Sub (Expression.NumberLiteral 1)
         (Expression.VariableReference name_d)),
     Statement.Definition name_c_d
       (Expression.Sub (Expression.VariableReference name_c)
         (Expression.VariableReference name_d)),
     Statement.Compiler name_w
       (Expression.Div (Expression.NumberLiteral 1)
         (Expression.VariableReference name_c_d)),
     Statement.Condition (Expression.NumberLiteral 0)
       (Expression.Mult (Expression.VariableReference name_c)
         (Expression.VariableReference name_d)),
     Statement.Condition (Expression.NumberLiteral 0)
       (Expression.Mult (Expression.VariableReference name_d)
         (Expression.VariableReference name_1_d)),
     Statement.Condition (Expression.NumberLiteral 1)
       (Expression.Mult (Expression.VariableReference name_c_d)
         (Expression.VariableReference name_w))]
  (f, stmts, name_d, name_1_d)

/-- Weight of a rational used as a `Pow` exponent when computing recursion
fuel: the `Pow` arm recurses from exponent `x` to `x - 1` while `2 < x`, so
the positive part of the ceiling strictly decreases. -/
def ratWeight (x : Rat) : Nat :=
  (⌈x⌉).toNat

/-- Fuel bound for `flattenExprF`: an upper bound on the recursion depth of
the source's `flatten_expression` on the given expression. -/
def exprFuel : Expression → Nat
  | .NumberLiteral x => ratWeight x + 1
  | .VariableReference _ => 1
  | .Add l r => exprFuel l + exprFuel r + 1
  | .Sub l r => exprFuel l + exprFuel r + 1
  | .Mult l r => exprFuel l + exprFuel r + 1
  | .Div l r => exprFuel l + exprFuel r + 1
  | .Pow l r => exprFuel l + exprFuel r + 1
  | .IfElse _ cl cr t a => exprFuel cl + exprFuel cr + exprFuel t + exprFuel a + 12

/-- Fueled model of `Flattener::flatten_expression`.  Statements are appended
to `stmts` (the `statements_flattened` buffer); the flattener state is
threaded explicitly.  The `IfElse` arm inlines `flatten_condition` (through
the shared gadget helpers) so that the mutual recursion of the source becomes
a single recursion on the fuel. -/
def flattenExprF : Nat → Flattener → List Statement → Expression →
    Except FlattenError (Flattener × List Statement × Expression)
  | 0, _, _, _ => .error .OutOfFuel
  | fuel + 1, f, stmts, e =>
    match e with
    | .NumberLiteral n => .ok (f, stmts, .NumberLiteral n)
    | .VariableReference v => .ok (f, stmts, .VariableReference v)
    | .Add l r =>
      if (Expression.Add l r).is_flattened then .ok (f, stmts, .Add l r)
      else
        match flattenExprF fuel f stmts l with
        | .error err => .error err
        | .ok (f, stmts, lf) =>
          match flattenExprF fuel f stmts r with
          | .error err => .error err
          | .ok (f, stmts, rf) =>
            let (f, stmts, nl) := bindLinear f stmts lf
            let (f, stmts, nr) := bindLinear f stmts rf
            .ok (f, stmts, .Add nl nr)
    | .Sub l r =>
      if (Expression.Sub l r).is_flattened then .ok (f, stmts, .Sub l r)
      else
        match flattenExprF fuel f stmts l with
        | .error err => .error err
        | .ok (f, stmts, lf) =>
          match flattenExprF fuel f stmts r with
          | .error err => .error err
          | .ok (f, stmts, rf) =>
            let (f, stmts, nl) := bindLinear f stmts lf
            let (f, stmts, nr) := bindLinear f stmts rf
            .ok (f, stmts, .Sub nl nr)
    | .Mult l r =>
      if (Expression.Mult l r).is_flattened then .ok (f, stmts, .Mult l r)
      else
        match flattenExprF fuel f stmts l with
        | .error err => .error err
        | .ok (f, stmts, lf) =>
          match flattenExprF fuel f stmts r with
          | .error err => .error err
          | .ok (f, stmts, rf) =>
            let (f, stmts, nl) := bindLinearMult f stmts lf
            let (f, stmts, nr) := bindLinearMult f stmts rf
            .ok (f, stmts, .Mult nl nr)
    | .Div l r =>
      if (Expression.Div l r).is_flattened then .ok (f, stmts, .Div l r)
      else
        match flattenExprF fuel f stmts l with
        | .error err => .error err
        | .ok (f, stmts, lf) =>
          match flattenExprF fuel f stmts r with
          | .error err => .error err
          | .ok (f, stmts, rf) =>
            let (f, stmts, nl) := bindLinear f stmts lf
            let (f, stmts, nr) := bindLinear f stmts rf
            .ok (f, stmts, .Div nl nr)
    | .Pow base exp =>
      match exp with
      | .NumberLiteral x =>
        if 1 < x then
          match base with
          | .VariableReference var =>
            if 2 < x then
              match flattenExprF fuel f stmts
                  (.Pow (.VariableReference var) (.NumberLiteral (x - 1))) with
              | .error err => .error err
              | .ok (f, stmts, tmp) =>
                let new_name := symName f.next_var_idx
                let f := f.bump
                .ok (f, stmts ++ [Statement.Definition new_name tmp],
                  .Mult (.VariableReference new_name) (.VariableReference var))
            else
              .ok (f, stmts, .Mult (.VariableReference var) (.VariableReference var))
          | .NumberLiteral v =>
            .ok (f, stmts, .Mult (.NumberLiteral v) (.NumberLiteral v))
          | _ => .error .UnsupportedPowerBase
        else .error .UnsupportedExponent
      | _ => .error .UnsupportedExponent
    | .IfElse ck cl cr t a =>
      match ck with
      | .Lt =>
        match flattenExprF fuel f stmts cl with
        | .error err => .error err
        | .ok (f, stmts, clF) =>
          match flattenExprF fuel f stmts cr with
          | .error err => .error err
          | .ok (f, stmts, crF) =>
            let (f, stmts, ct, cf) := ltGadget f stmts clF crF
            flattenExprF fuel f stmts
              (.Add (.Mult (.VariableReference ct) t)
                (.Mult (.VariableReference cf) a))
      | .Eq =>
        let (f, name_c, name_d, name_1_d, name_c_d, name_w) := eqAlloc f
        match flattenExprF fuel f stmts (.Sub cl cr) with
        | .error err => .error err
        | .ok (f, stmts, cF) =>
          let (f, stmts, ct, cf) := eqGadget f stmts name_c name_d name_1_d name_c_d name_w cF
          flattenExprF fuel f stmts
            (.Add (.Mult (.VariableReference ct) t)
              (.Mult (.VariableReference cf) a))

/-- `Flattener::flatten_expression`, with sufficient fuel. -/
def flatten_expression (f : Flattener) (stmts : List Statement) (e : Expression) :
    Except FlattenError (Flattener × List Statement × Expression) :=
  flattenExprF (exprFuel e) f stmts e

/-- `Flattener::flatten_condition`: returns the pair of indicator variable
names (the source returns the pair of `VariableReference` expressions built
from exactly these names). -/
def flatten_condition (f : Flattener) (stmts : List Statement) (c : Condition) :
    Except FlattenError (Flattener × List Statement × String × String) :=
  match c.kind with
  | .Lt =>
    match flatten_expression f stmts c.lhs with
    | .error err => .error err
    | .ok (f, stmts, lhsF) =>
      match flatten_expression f stmts c.rhs with
      | .error err => .error err
      | .ok (f, stmts, rhsF) => .ok (ltGadget f stmts lhsF rhsF)
  | .Eq =>
    let (f, name_c, name_d, name_1_d, name_c_d, name_w) := eqAlloc f
    match flatten_expression f stmts (.Sub c.lhs c.rhs) with
    | .error err => .error err
    | .ok (f, stmts, cF) =>
      .ok (eqGadget f stmts name_c name_d name_1_d name_c_d name_w cF)

/-- The fresh-name fallback returned if the probe fuel of `use_variable`
were ever exhausted: a name strictly longer than every used name, hence
certainly unused.  The probe loop of the source always terminates (the
candidates `name`, `name_0`, `name_1`, ... are pairwise distinct and the
used-name set is finite), and the fuel passed below suffices for that
argument, so this fallback is unreachable; it only keeps the model total
while preserving the freshness guarantee on the only observable path. -/
def concatAll : List String → String
  | [] => ""
  | s :: rest => s ++ concatAll rest

def freshFallback (vars : List String) (name : String) : String :=
  name ++ "_" ++ concatAll vars ++ "_"

/-- The probe loop of `use_variable`: starting from candidate `name` with
`i = 0`, while the candidate is used, move to `format!("{}_{}", name, i)`
and increment `i`.  Returns the found candidate and the final `i`. -/
def useVariableLoop (vars : List String) (name : String) :
    Nat → Nat → String → String × Nat
  | 0, i, _ => (freshFallback vars name, i)
  | fuel + 1, i, cand =>
    if vars.contains cand then
      useVariableLoop vars name fuel (i + 1) (name ++ "_" ++ toString i)
    else (cand, i)

/-- `Flattener::use_variable`: probe for an unused name, record it as used,
and update the substitution (`name ↦ name_0` on the first reassignment,
`name_(i-2) ↦ name_(i-1)` on later ones). -/
def Flattener.use_variable (f : Flattener) (name : String) : String × Flattener :=
  let (new_name, i) := useVariableLoop f.vars name (f.vars.length + 1) 0 name
  let f : Flattener := ⟨f.bits, insertSet f.vars new_name, f.substitution, f.next_var_idx⟩
  if i == 1 then
    (new_name, ⟨f.bits, f.vars, insertPair f.substitution name new_name, f.next_var_idx⟩)
  else if 1 < i then
    (new_name, ⟨f.bits, f.vars,
      insertPair f.substitution (name ++ "_" ++ toString (i - 2)) new_name, f.next_var_idx⟩)
  else (new_name, f)

/-- One iteration of the statement loop of `Flattener::flatten_program`. -/
def flatten_statement (f : Flattener) (stmts : List Statement) (s : Statement) :
    Except FlattenError (Flattener × List Statement) :=
  match s with
  | .Return e =>
    let es := e.apply_substitution f.substitution
    match flatten_expression f stmts es with
    | .error err => .error err
    | .ok (f, stmts, rhs) =>
      let f : Flattener := ⟨f.bits, insertSet f.vars ("~out"), f.substitution, f.next_var_idx⟩
      .ok (f, stmts ++ [Statement.Return rhs])
  | .Definition id e =>
    let es := e.apply_substitution f.substitution
    match flatten_expression f stmts es with
    | .error err => .error err
    | .ok (f, stmts, rhs) =>
      let (new_name, f) := f.use_variable id
      .ok (f, stmts ++ [Statement.Definition new_name rhs])
  | .Condition e1 e2 =>
    let e1s := e1.apply_substitution f.substitution
    let e2s := e2.apply_substitution f.substitution
    if e1s.is_linear then
      match flatten_expression f stmts e2s with
      | .error err => .error err
      | .ok (f, stmts, rhs) => .ok (f, stmts ++ [Statement.Condition e1s rhs])
    else if e2s.is_linear then
      match flatten_expression f stmts e1s with
      | .error err => .error err
      | .ok (f, stmts, rhs) => .ok (f, stmts ++ [Statement.Condition e2s rhs])
    else .error .UnresolvableEquality
  | .Compiler n e => .ok (f, stmts ++ [Statement.Compiler n e])

/-- The statement loop of `Flattener::flatten_program`. -/
def flattenStmtsFold (f : Flattener) (stmts : List Statement) :
    List Statement → Except FlattenError (Flattener × List Statement)
  | [] => .ok (f, stmts)
  | s :: rest =>
    match flatten_statement f stmts s with
    | .error err => .error err
    | .ok (f, stmts) => flattenStmtsFold f stmts rest

/-- `Flattener::flatten_program`: reset the per-program state, process the
statements in order, and rebuild the program with the same identifier and
arguments.  The final flattener state is returned alongside the program
(the source mutates `self`). -/
def Flattener.flatten_program (f : Flattener) (prog : Prog) :
    Except FlattenError (Flattener × Prog) :=
  let f : Flattener := ⟨f.bits, [], [], 0⟩
  match flattenStmtsFold f [] prog.statements with
  | .error err => .error err
  | .ok (f, stmts) => .ok (f, ⟨prog.id, prog.arguments, stmts⟩)

/-- Witness-environment lookup (a witness is a full assignment of field
values to variable names). -/
def lookupEnv (env : List (String × Rat)) (k : String) : Option Rat :=
  match env with
  | [] => none
  | (k1, v) :: rest => if k1 = k then some v else lookupEnv rest k

/-- Evaluate an expression under a witness environment.  Arithmetic is the
field arithmetic of `Rat`; `Div` is field division (the hint `w = 1 / (c-d)`
is only meaningful when `c ≠ d`, which is the only case the gadget's
constraints touch).  `Pow` never occurs in flattened output and has no
evaluation. -/
def evalExpr (env : List (String × Rat)) : Expression → Option Rat
  | .NumberLiteral n => some n
  | .VariableReference v => lookupEnv env v
  | .Add l r =>
    match evalExpr env l, evalExpr env r with
    | some a, some b => some (a + b)
    | _, _ => none
  | .Sub l r =>
    match evalExpr env l, evalExpr env r with
    | some a, some b => some (a - b)
    | _, _ => none
  | .Mult l r =>
    match evalExpr env l, evalExpr env r with
    | some a, some b => some (a * b)
    | _, _ => none
  | .Div l r =>
    match evalExpr env l, evalExpr env r with
    | some a, some b => some (a / b)
    | _, _ => none
  | .Pow _ _ => none
  | .IfElse ck cl cr t a =>
    match evalExpr env cl, evalExpr env cr with
    | some x, some y =>
      match ck with
      | .Lt => if x < y then evalExpr env t else evalExpr env a
      | .Eq => if x = y then evalExpr env t else evalExpr env a
    | _, _ => none

/-- A witness environment satisfies a statement when a `Definition` or
`Compiler` (hint) statement's target carries exactly the value of its
right-hand side, and a `Condition` (constraint) statement's two sides
evaluate to the same defined value.  This is the constraint reading of a
flattened program: every definition becomes an enforced equation
downstream, and hints must be assigned consistently. -/
def stmtHolds (env : List (String × Rat)) : Statement → Bool
  | .Return _ => true
  | .Definition n e => decide (lookupEnv env n = evalExpr env e ∧ (evalExpr env e).isSome)
  | .Compiler n e => decide (lookupEnv env n = evalExpr env e ∧ (evalExpr env e).isSome)
  | .Condition l r => decide (evalExpr env l = evalExpr env r ∧ (evalExpr env l).isSome)

/-- A witness environment satisfies a whole statement sequence. -/
def satisfiesAll (env : List (String × Rat)) (l : List Statement) : Bool :=
  l.all (stmtHolds env)

/-- Forward execution of a straight-line flattened statement list: each
`Definition`/`Compiler` assigns its target, `Condition` and `Return` are
skipped.  Used to evaluate non-self-referential output (the `Pow` chains). -/
def runStmts (env : List (String × Rat)) : List Statement → Option (List (String × Rat))
  | [] => some env
  | .Definition n e :: rest =>
    match evalExpr env e with
    | some v => runStmts (env ++ [(n, v)]) rest
    | none => none
  | .Compiler n e :: rest =>
    match evalExpr env e with
    | some v => runStmts (env ++ [(n, v)]) rest
    | none => none
  | .Return _ :: rest => runStmts env rest
  | .Condition _ _ :: rest => runStmts env rest

/-- Statement is a `Definition` whose right-hand side is a multiplication. -/
def isMultDef : Statement → Bool
  | .Definition _ (.Mult _ _) => true
  | _ => false

/-- The list of `Definition` target names of a statement list. -/
def defTargets : List Statement → List String
  | [] => []
  | .Definition n _ :: rest => n :: defTargets rest
  | _ :: rest => defTargets rest

/-- Every `Mult`/`Div` operand anywhere inside the expression is affine
(literal, variable reference, or Add/Sub combination thereof) — the
affine-closure property of claim C8, checked structurally. -/
def mdOperandsLinear : Expression → Bool
  | .NumberLiteral _ => true
  | .VariableReference _ => true
  | .Add l r => mdOperandsLinear l && mdOperandsLinear r
  | .Sub l r => mdOperandsLinear l && mdOperandsLinear r
  | .Mult l r => l.is_linear && r.is_linear
  | .Div l r => l.is_linear && r.is_linear
  | .Pow l r => mdOperandsLinear l && mdOperandsLinear r
  | .IfElse _ cl cr t a =>
    mdOperandsLinear cl && mdOperandsLinear cr && mdOperandsLinear t && mdOperandsLinear a

/-- Affine-closure at the statement level.  `Compiler` (hint) statements are
exempt: they are passed through verbatim by the driver and are not
constraint-bearing (the amended form of claim C8). -/
def stmtClosed : Statement → Bool
  | .Return e => mdOperandsLinear e
  | .Definition _ e => mdOperandsLinear e
  | .Condition l r => mdOperandsLinear l && mdOperandsLinear r
  | .Compiler _ _ => true

/-- The recomposition the spec describes, written from the spec's words for
comparison with `ltRecompose`: each digit `i` in `0..bits-2` contributes
`+2^i` and the top digit contributes `-2^(bits-1)`. -/
def specRecompose (cond_result : String) (bits : Nat) : Expression :=
  let expr := (List.range (bits - 1)).foldl (fun acc i =>
    Expression.Add acc (Expression.Mult
      (Expression.VariableReference (bitName cond_result i))
      (Expression.NumberLiteral ((2 : Rat) ^ i)))) (Expression.NumberLiteral 0)
  Expression.Add expr
    (Expression.Mult (Expression.VariableReference (bitName cond_result (bits - 1)))
      (Expression.NumberLiteral (0 - (2 : Rat) ^ (bits - 1))))

/-- The statements emitted by `flatten_condition` for `Lt(5, 1)` at
`bits = 8`: bind both operands, define the diff `sym_2`, emit the eight
digit self-consistency definitions, redefine `sym_2` as the recomposition,
and define the false indicator `sym_3`. -/
def ltStmts58 : List Statement :=
  [Statement.Definition ("sym_0") (Expression.NumberLiteral 5),
   Statement.Definition ("sym_1") (Expression.NumberLiteral 1),
   Statement.Definition ("sym_2")
     (Expression.Sub (Expression.VariableReference ("sym_0"))
       (Expression.VariableReference ("sym_1"))),
   Statement.Definition ("sym_2_b0")
     (Expression.Mult (Expression.VariableReference ("sym_2_b0"))
       (Expression.VariableReference ("sym_2_b0"))),
   Statement.Definition ("sym_2_b1")
     (Expression.Mult (Expression.VariableReference ("sym_2_b1"))
       (Expression.VariableReference ("sym_2_b1"))),
   Statement.Definition ("sym_2_b2")
     (Expression.Mult (Expression.VariableReference ("sym_2_b2"))
       (Expression.VariableReference ("sym_2_b2"))),
   Statement.Definition ("sym_2_b3")
     (Expression.Mult (Expression.VariableReference ("sym_2_b3"))
       (Expression.VariableReference ("sym_2_b3"))),
   Statement.Definition ("sym_2_b4")
     (Expression.Mult (Expression.VariableReference ("sym_2_b4"))
       (Expression.VariableReference ("sym_2_b4"))),
   Statement.Definition ("sym_2_b5")
     (Expression.Mult (Expression.VariableReference ("sym_2_b5"))
       (Expression.VariableReference ("sym_2_b5"))),
   Statement.Definition ("sym_2_b6")
     (Expression.Mult (Expression.VariableReference ("sym_2_b6"))
       (Expression.VariableReference ("sym_2_b6"))),
   Statement.Definition ("sym_2_b7")
     (Expression.Mult (Expression.VariableReference ("sym_2_b7"))
       (Expression.VariableReference ("sym_2_b7"))),
   Statement.Definition ("sym_2") (ltRecompose ("sym_2") 8),
   Statement.Definition ("sym_3")
     (Expression.Sub (Expression.NumberLiteral 1)
       (Expression.VariableReference ("sym_2_b7")))]

/-- The true witness for `Lt(5, 1)` at `bits = 8`: the diff is
`5 - 1 = 4`, whose two's-complement digits over 8 bits are
`b2 = 1` and all other digits `0`; the top digit (the less-than
indicator) is `0` and the false indicator is `1`. -/
def ltWitness58 : List (String × Rat) :=
  [(("sym_0"), 5), (("sym_1"), 1), (("sym_2"), 4),
   (("sym_2_b0"), 0), (("sym_2_b1"), 0), (("sym_2_b2"), 1), (("sym_2_b3"), 0),
   (("sym_2_b4"), 0), (("sym_2_b5"), 0), (("sym_2_b6"), 0), (("sym_2_b7"), 0),
   (("sym_3"), 1)]

/-- Digit environment with only digit 2 set, for reading off the weight the
recomposition gives to digit position 2. -/
def digitEnv2 : List (String × Rat) :=
  [(("d_b0"), 0), (("d_b1"), 0), (("d_b2"), 1), (("d_b3"), 0),
   (("d_b4"), 0), (("d_b5"), 0), (("d_b6"), 0), (("d_b7"), 0)]

/-- Digit environment with only the top digit set, for reading off the
weight the recomposition gives to the top position. -/
def digitEnv7 : List (String × Rat) :=
  [(("d_b0"), 0), (("d_b1"), 0), (("d_b2"), 0), (("d_b3"), 0),
   (("d_b4"), 0), (("d_b5"), 0), (("d_b6"), 0), (("d_b7"), 1)]

/-- The statements the `Eq` gadget emits for `Eq(a, b)` starting from a
fresh flattener (`sym_0` = `c`, `sym_1` = `d`, `sym_2` = `1-d`,
`sym_3` = `c-d`, `sym_4` = `w`). -/
def eqStmts (a b : Rat) : List Statement :=
  [Statement.Definition (symName 0)
     (Expression.Sub (Expression.NumberLiteral a) (Expression.NumberLiteral b)),
   Statement.Compiler (symName 1)
     (Expression.IfElse CondKind.Eq (Expression.VariableReference (symName 0))
       (Expression.NumberLiteral 0) (Expression.NumberLiteral 1)
       (Expression.NumberLiteral 0)),
   Statement.Definition (symName 2)
     (Expression.Sub (Expression.NumberLiteral 1)
       (Expression.VariableReference (symName 1))),
   Statement.Definition (symName 3)
     (Expression.Sub (Expression.VariableReference (symName 0))
       (Expression.VariableReference (symName 1))),
   Statement.Compiler (symName 4)
     (Expression.Div (Expression.NumberLiteral 1)
       (Expression.VariableReference (symName 3))),
   Statement.Condition (Expression.NumberLiteral 0)
     (Expression.Mult (Expression.VariableReference (symName 0))
       (Expression.VariableReference (symName 1))),
   Statement.Condition (Expression.NumberLiteral 0)
     (Expression.Mult (Expression.VariableReference (symName 1))
       (Expression.VariableReference (symName 2))),
   Statement.Condition (Expression.NumberLiteral 1)
     (Expression.Mult (Expression.VariableReference (symName 3))
       (Expression.VariableReference (symName 4)))]

/-- The intended witness for the `Eq` gadget on concrete values `a, b`:
`c = a - b`, `d` is the equality indicator computed by the hint, and
`w = 1 / (c - d)`. -/
def eqWitness (a b : Rat) : List (String × Rat) :=
  [(symName 0, a - b),
   (symName 1, if a - b = 0 then 1 else 0),
   (symName 2, 1 - (if a - b = 0 then 1 else 0)),
   (symName 3, (a - b) - (if a - b = 0 then 1 else 0)),
   (symName 4, 1 / ((a - b) - (if a - b = 0 then 1 else 0)))]

/-- Program binding `y = x ^ k` (the claim C4 fixture). -/
def progPow (k : Rat) : Prog :=
  ⟨("main"), [("x")],
    [Statement.Definition ("y")
      (Expression.Pow (Expression.VariableReference ("x")) (Expression.NumberLiteral k))]⟩

/-- Program with a single less-than conditional, `y = if a < 5 then 1 else 0`
(the claim C5 counterexample fixture). -/
def progLtCond : Prog :=
  ⟨("main"), [("a")],
    [Statement.Definition ("y")
      (Expression.IfElse CondKind.Lt (Expression.VariableReference ("a"))
        (Expression.NumberLiteral 5) (Expression.NumberLiteral 1)
        (Expression.NumberLiteral 0))]⟩

/-- Program defining `x` three times and returning `x` (the claim C6
fixture). -/
def progReassign : Prog :=
  ⟨("main"), [],
    [Statement.Definition ("x") (Expression.NumberLiteral 1),
     Statement.Definition ("x") (Expression.NumberLiteral 2),
     Statement.Definition ("x") (Expression.NumberLiteral 3),
     Statement.Return (Expression.VariableReference ("x"))]⟩

/-- Program containing a hint whose expression has a non-affine `Mult`
operand (the claim C8 counterexample fixture: hints pass through the
driver verbatim). -/
def progHintMult : Prog :=
  ⟨("main"), [("a")],
    [Statement.Compiler ("h")
      (Expression.Mult
        (Expression.Mult (Expression.VariableReference ("a"))
          (Expression.VariableReference ("a")))
        (Expression.VariableReference ("a")))]⟩

/-- Program binding `y = 2 ^ 3` with a literal base (the claim C4
counterexample fixture). -/
def progPowLit : Prog :=
  ⟨("main"), [],
    [Statement.Definition ("y")
      (Expression.Pow (Expression.NumberLiteral 2) (Expression.NumberLiteral 3))]⟩

/-- Expected output statements for `y = x ^ 2`. -/
def powOut2 : List Statement :=
  [Statement.Definition ("y")
    (Expression.Mult (Expression.VariableReference ("x")) (Expression.VariableReference ("x")))]

/-- Expected output statements for `y = x ^ 3`. -/
def powOut3 : List Statement :=
  [Statement.Definition ("sym_0")
    (Expression.Mult (Expression.VariableReference ("x")) (Expression.VariableReference ("x"))),
   Statement.Definition ("y")
    (Expression.Mult (Expression.VariableReference ("sym_0")) (Expression.VariableReference ("x")))]

/-- Expected output statements for `y = x ^ 4`. -/
def powOut4 : List Statement :=
  [Statement.Definition ("sym_0")
    (Expression.Mult (Expression.VariableReference ("x")) (Expression.VariableReference ("x"))),
   Statement.Definition ("sym_1")
    (Expression.Mult (Expression.VariableReference ("sym_0")) (Expression.VariableReference ("x"))),
   Statement.Definition ("y")
    (Expression.Mult (Expression.VariableReference ("sym_1")) (Expression.VariableReference ("x")))]

/-- Expected output statements for `y = x ^ 5`. -/
def powOut5 : List Statement :=
  [Statement.Definition ("sym_0")
    (Expression.Mult (Expression.VariableReference ("x")) (Expression.VariableReference ("x"))),
   Statement.Definition ("sym_1")
    (Expression.Mult (Expression.VariableReference ("sym_0")) (Expression.VariableReference ("x"))),
   Statement.Definition ("sym_2")
    (Expression.Mult (Expression.VariableReference ("sym_1")) (Expression.VariableReference ("x"))),
   Statement.Definition ("y")
    (Expression.Mult (Expression.VariableReference ("sym_2")) (Expression.VariableReference ("x")))]

theorem bitName_d_0 : bitName ("d") 0 = ("d_b0") := rfl
theorem bitName_d_1 : bitName ("d") 1 = ("d_b1") := rfl
theorem bitName_d_2 : bitName ("d") 2 = ("d_b2") := rfl
theorem bitName_d_3 : bitName ("d") 3 = ("d_b3") := rfl
theorem bitName_d_4 : bitName ("d") 4 = ("d_b4") := rfl
theorem bitName_d_5 : bitName ("d") 5 = ("d_b5") := rfl
theorem bitName_d_6 : bitName ("d") 6 = ("d_b6") := rfl
theorem bitName_d_7 : bitName ("d") 7 = ("d_b7") := rfl

theorem bitName_sym2_0 : bitName ("sym_2") 0 = ("sym_2_b0") := rfl
theorem bitName_sym2_1 : bitName ("sym_2") 1 = ("sym_2_b1") := rfl
theorem bitName_sym2_2 : bitName ("sym_2") 2 = ("sym_2_b2") := rfl
theorem bitName_sym2_3 : bitName ("sym_2") 3 = ("sym_2_b3") := rfl
theorem bitName_sym2_4 : bitName ("sym_2") 4 = ("sym_2_b4") := rfl
theorem bitName_sym2_5 : bitName ("sym_2") 5 = ("sym_2_b5") := rfl
theorem bitName_sym2_6 : bitName ("sym_2") 6 = ("sym_2_b6") := rfl
theorem bitName_sym2_7 : bitName ("sym_2") 7 = ("sym_2_b7") := rfl

theorem symName_0 : symName 0 = ("sym_0") := rfl
theorem symName_1 : symName 1 = ("sym_1") := rfl
theorem symName_2 : symName 2 = ("sym_2") := rfl
theorem symName_3 : symName 3 = ("sym_3") := rfl
theorem symName_4 : symName 4 = ("sym_4") := rfl

/-- C1: the claim states that in the Lt gadget's redefinition of the diff
symbol, digit `i` in `0..bits-2` contributes `+2^i` and the top digit
contributes `-2^(bits-1)`.  The code's recomposition (`ltRecompose`, built
at lines 78-106 of `flatten.rs`) disagrees: at `bits = 8` digit position 2
carries weight `2` (the pair loop gives digits `2i` and `2i+1` the weight
`2^i`), while the claimed weighting (`specRecompose`, written from the
spec's words) gives it `2^2 = 4`; and the top digit carries `8 - 128` (it
also appears inside the pair loop) instead of `-2^7 = -128`.  This is a
code bug: the claim describes the only recomposition that makes the gadget
a two's-complement decomposition. -/
theorem C1_lt_recompose_weights :
    evalExpr digitEnv2 (ltRecompose ("d") 8) = some 2
    ∧ evalExpr digitEnv2 (specRecompose ("d") 8) = some 4
    ∧ evalExpr digitEnv7 (ltRecompose ("d") 8) = some (8 - 128)
    ∧ evalExpr digitEnv7 (specRecompose ("d") 8) = some (0 - 128)
    ∧ (((2 : Rat) == 4) = false)
    ∧ (((8 - 128 : Rat) == 0 - 128) = false) := by
  refine ⟨?_, ?_, ?_, ?_, ?_, ?_⟩
  · simp [ltRecompose, List.range', List.foldl, bitName_d_0, bitName_d_1, bitName_d_2,
      bitName_d_3, bitName_d_4, bitName_d_5, bitName_d_6, bitName_d_7,
      evalExpr, lookupEnv, digitEnv2]
    try norm_num
  · simp [specRecompose, List.range, List.range', List.foldl, bitName_d_0, bitName_d_1,
      bitName_d_2, bitName_d_3, bitName_d_4, bitName_d_5, bitName_d_6, bitName_d_7,
      evalExpr, lookupEnv, digitEnv2]
    try norm_num
  · simp [ltRecompose, List.range', List.foldl, bitName_d_0, bitName_d_1, bitName_d_2,
      bitName_d_3, bitName_d_4, bitName_d_5, bitName_d_6, bitName_d_7,
      evalExpr, lookupEnv, digitEnv7]
    try norm_num
  · simp [specRecompose, List.range, List.range', List.foldl, bitName_d_0, bitName_d_1,
      bitName_d_2, bitName_d_3, bitName_d_4, bitName_d_5, bitName_d_6, bitName_d_7,
      evalExpr, lookupEnv, digitEnv7]
    try norm_num
  · simp only [beq_eq_false_iff_ne]
    norm_num
  · simp only [beq_eq_false_iff_ne]
    norm_num

/-- C2: the claim states that the true witness values satisfy the flattened
`Lt` statement sequence with the top digit as the less-than indicator.  At
`bits = 8`, `a = 5`, `b = 1` (diff `4`, two's-complement digits `b2 = 1`,
all others `0`), the true witness violates the redefinition of the diff
symbol: the witness binds `sym_2` to `4`, but the code's recomposition
evaluates to `2` under the true digits (the spec's recomposition evaluates
to `4` as expected).  This is the same code bug as C1: `satisfiesAll` is
`false` on the true witness, so the gadget is not correct as claimed. -/
theorem C2_lt_true_witness_fails :
    flatten_condition (Flattener.new 8) []
      (Condition.Lt (Expression.NumberLiteral 5) (Expression.NumberLiteral 1)) =
      Except.ok (⟨8, [], [], 4⟩, ltStmts58, ("sym_2_b7"), ("sym_3"))
    ∧ satisfiesAll ltWitness58 ltStmts58 = false
    ∧ lookupEnv ltWitness58 ("sym_2") = some 4
    ∧ evalExpr ltWitness58 (ltRecompose ("sym_2") 8) = some 2
    ∧ evalExpr ltWitness58 (specRecompose ("sym_2") 8) = some 4
    ∧ stmtHolds ltWitness58 (Statement.Definition ("sym_2") (ltRecompose ("sym_2") 8)) = false := by
  refine ⟨rfl, ?_, rfl, ?_, ?_, ?_⟩
  · simp [satisfiesAll, ltStmts58, ltWitness58, stmtHolds, evalExpr, lookupEnv,
      ltRecompose, List.range', List.foldl, bitName_sym2_0, bitName_sym2_1, bitName_sym2_2,
      bitName_sym2_3, bitName_sym2_4, bitName_sym2_5, bitName_sym2_6, bitName_sym2_7]
    try norm_num
  · simp [ltRecompose, List.range', List.foldl, bitName_sym2_0, bitName_sym2_1, bitName_sym2_2,
      bitName_sym2_3, bitName_sym2_4, bitName_sym2_5, bitName_sym2_6, bitName_sym2_7,
      evalExpr, lookupEnv, ltWitness58]
    try norm_num
  · simp [specRecompose, List.range, List.range', List.foldl, bitName_sym2_0, bitName_sym2_1,
      bitName_sym2_2, bitName_sym2_3, bitName_sym2_4, bitName_sym2_5, bitName_sym2_6,
      bitName_sym2_7, evalExpr, lookupEnv, ltWitness58]
    try norm_num
  · simp [stmtHolds, evalExpr, lookupEnv, ltWitness58, ltRecompose, List.range', List.foldl,
      bitName_sym2_0, bitName_sym2_1, bitName_sym2_2, bitName_sym2_3, bitName_sym2_4,
      bitName_sym2_5, bitName_sym2_6, bitName_sym2_7]
    try norm_num

/-- C4 counterexample: flattening `Pow` with a literal base ignores the
exponent.  Binding `y = 2 ^ 3` flattens to the single multiplication
`2 * 2`, which evaluates to `4`, not `2 ^ 3 = 8`; and it produces `1`
multiplication-bearing definition, not `k - 1 = 2`. -/
theorem C4_pow_literal_base_counterexample :
    (Flattener.new 8).flatten_program progPowLit =
      Except.ok (⟨8, [("y")], [], 0⟩, ⟨("main"), [],
        [Statement.Definition ("y")
          (Expression.Mult (Expression.NumberLiteral 2) (Expression.NumberLiteral 2))]⟩)
    ∧ ((([Statement.Definition ("y")
          (Expression.Mult (Expression.NumberLiteral 2) (Expression.NumberLiteral 2))].filter
            isMultDef).length) = 1)
    ∧ ((runStmts [] [Statement.Definition ("y")
          (Expression.Mult (Expression.NumberLiteral 2) (Expression.NumberLiteral 2))]).bind
        (fun env => lookupEnv env ("y"))) = some 4
    ∧ (((4 : Rat) == 2 ^ 3) = false) := by
  refine ⟨rfl, rfl, ?_, ?_⟩
  · simp [runStmts, evalExpr, lookupEnv]
    try norm_num
  · simp only [beq_eq_false_iff_ne]
    norm_num

/-- C4 amended: for a variable-reference base, binding `Pow(x, k)` for
`k` in 2, 3, 4, 5 produces exactly `k - 1` multiplication-bearing
definitions and evaluating the chain with `x = v` yields `v ^ k` (for a
literal base the code emits `base * base` regardless of the exponent, see
the counterexample). -/
theorem C4_pow_unrolling_amended :
    ((Flattener.new 8).flatten_program (progPow 2) =
      Except.ok (⟨8, [("y")], [], 0⟩, ⟨("main"), [("x")], powOut2⟩)
     ∧ (powOut2.filter isMultDef).length = 1
     ∧ ∀ v : Rat, ((runStmts [(("x"), v)] powOut2).bind (fun env => lookupEnv env ("y"))) =
        some (v ^ 2))
    ∧ ((Flattener.new 8).flatten_program (progPow 3) =
      Except.ok (⟨8, [("y")], [], 1⟩, ⟨("main"), [("x")], powOut3⟩)
     ∧ (powOut3.filter isMultDef).length = 2
     ∧ ∀ v : Rat, ((runStmts [(("x"), v)] powOut3).bind (fun env => lookupEnv env ("y"))) =
        some (v ^ 3))
    ∧ ((Flattener.new 8).flatten_program (progPow 4) =
      Except.ok (⟨8, [("y")], [], 2⟩, ⟨("main"), [("x")], powOut4⟩)
     ∧ (powOut4.filter isMultDef).length = 3
     ∧ ∀ v : Rat, ((runStmts [(("x"), v)] powOut4).bind (fun env => lookupEnv env ("y"))) =
        some (v ^ 4))
    ∧ ((Flattener.new 8).flatten_program (progPow 5) =
      Except.ok (⟨8, [("y")], [], 3⟩, ⟨("main"), [("x")], powOut5⟩)
     ∧ (powOut5.filter isMultDef).length = 4
     ∧ ∀ v : Rat, ((runStmts [(("x"), v)] powOut5).bind (fun env => lookupEnv env ("y"))) =
        some (v ^ 5)) := by
  have flat3 : (Flattener.new 8).flatten_program (progPow 3) =
      Except.ok (⟨8, [("y")], [], 1⟩, ⟨("main"), [("x")], powOut3⟩) := by
    norm_num [Flattener.flatten_program, flattenStmtsFold, flatten_statement, progPow,
      Expression.apply_substitution, flatten_expression, exprFuel, ratWeight,
      flattenExprF, Expression.is_flattened, Expression.is_linear, bindLinear, bindLinearMult,
      materialize, Flattener.bump, Flattener.use_variable, useVariableLoop, insertSet,
      powOut3, symName_0, symName_1, symName_2, chaseSub, Flattener.new]
  have flat4 : (Flattener.new 8).flatten_program (progPow 4) =
      Except.ok (⟨8, [("y")], [], 2⟩, ⟨("main"), [("x")], powOut4⟩) := by
    norm_num [Flattener.flatten_program, flattenStmtsFold, flatten_statement, progPow,
      Expression.apply_substitution, flatten_expression, exprFuel, ratWeight,
      flattenExprF, Expression.is_flattened, Expression.is_linear, bindLinear, bindLinearMult,
      materialize, Flattener.bump, Flattener.use_variable, useVariableLoop, insertSet,
      powOut4, symName_0, symName_1, symName_2, chaseSub, Flattener.new]
  have flat5 : (Flattener.new 8).flatten_program (progPow 5) =
      Except.ok (⟨8, [("y")], [], 3⟩, ⟨("main"), [("x")], powOut5⟩) := by
    norm_num [Flattener.flatten_program, flattenStmtsFold, flatten_statement, progPow,
      Expression.apply_substitution, flatten_expression, exprFuel, ratWeight,
      flattenExprF, Expression.is_flattened, Expression.is_linear, bindLinear, bindLinearMult,
      materialize, Flattener.bump, Flattener.use_variable, useVariableLoop, insertSet,
      powOut5, symName_0, symName_1, symName_2, chaseSub, Flattener.new]
  refine ⟨⟨rfl, rfl, ?_⟩, ⟨flat3, rfl, ?_⟩, ⟨flat4, rfl, ?_⟩, ⟨flat5, rfl, ?_⟩⟩ <;>
    (intro v
     simp [powOut2, powOut3, powOut4, powOut5, runStmts, evalExpr, lookupEnv]
     ring)

/-- C5 counterexample: the program `y = if a < 5 then 1 else 0` flattens
successfully at `bits = 4`, and the diff symbol `sym_2` of the less-than
gadget appears twice as a `Definition` target in the output (once as
`lhs - rhs`, once redefined as the digit recomposition), so Definition
targets are not unique. -/
theorem C5_duplicate_diff_definition :
    ((Flattener.new 4).flatten_program progLtCond).map
      (fun p => (defTargets p.2.statements).count ("sym_2")) = Except.ok 2 := rfl

/-- C6: a program defining `x`, then redefining it twice, flattens to the
three distinct physical names `x`, `x_0`, `x_1`, and the subsequent
`Return x` resolves through the chained substitution
`x ↦ x_0, x_0 ↦ x_1` to the last redefinition `x_1`. -/
theorem C6_reassignment_renaming :
    (Flattener.new 4).flatten_program progReassign =
      Except.ok (⟨4, [("x"), ("x_0"), ("x_1"), ("~out")],
        [(("x"), ("x_0")), (("x_0"), ("x_1"))], 0⟩,
        ⟨("main"), [],
         [Statement.Definition ("x") (Expression.NumberLiteral 1),
          Statement.Definition ("x_0") (Expression.NumberLiteral 2),
          Statement.Definition ("x_1") (Expression.NumberLiteral 3),
          Statement.Return (Expression.VariableReference ("x_1"))]⟩)
    ∧ ((("x" : String) == ("x_0")) = false)
    ∧ ((("x" : String) == ("x_1")) = false)
    ∧ ((("x_0" : String) == ("x_1")) = false) :=
  ⟨rfl, rfl, rfl, rfl⟩

/-- C3: flattening `Eq(a, b)` from a fresh flattener emits the expected
statement sequence whose constraint statements are exactly the three
algebraic constraints `c * d = 0`, `d * (1-d) = 0`, `(c-d) * w = 1` (with
`c` bound to the fresh `sym_0`, the hint-assigned `d = sym_1`,
`1-d = sym_2`, `c-d = sym_3`, `w = sym_4`), returns `(d, 1-d)`, and for
every pair of concrete values `a, b` the intended witness satisfies the
whole sequence with `d = 1` iff `a = b`. -/
theorem C3_eq_gadget_correct (bits : Nat) (a b : Rat) :
    flatten_condition (Flattener.new bits) []
      (Condition.Eq (Expression.NumberLiteral a) (Expression.NumberLiteral b)) =
      Except.ok (⟨bits, [], [], 5⟩, eqStmts a b, ("sym_1"), ("sym_2"))
    ∧ ((eqStmts a b).filter (fun s => match s with | Statement.Condition _ _ => true | _ => false)) =
      [Statement.Condition (Expression.NumberLiteral 0)
        (Expression.Mult (Expression.VariableReference ("sym_0"))
          (Expression.VariableReference ("sym_1"))),
       Statement.Condition (Expression.NumberLiteral 0)
        (Expression.Mult (Expression.VariableReference ("sym_1"))
          (Expression.VariableReference ("sym_2"))),
       Statement.Condition (Expression.NumberLiteral 1)
        (Expression.Mult (Expression.VariableReference ("sym_3"))
          (Expression.VariableReference ("sym_4")))]
    ∧ satisfiesAll (eqWitness a b) (eqStmts a b) = true
    ∧ (lookupEnv (eqWitness a b) ("sym_1") = some 1 ↔ a = b) := by
  refine ⟨?_, ?_, ?_, ?_⟩
  · simp [flatten_condition, Condition.Eq, eqAlloc, eqGadget, flatten_expression, exprFuel,
      flattenExprF, Expression.is_flattened, Expression.is_linear, Flattener.new, Flattener.bump,
      eqStmts, symName_0, symName_1, symName_2, symName_3, symName_4]
  · simp [eqStmts, List.filter, symName_0, symName_1, symName_2, symName_3, symName_4]
  · simp [satisfiesAll, eqStmts, eqWitness, stmtHolds, evalExpr, lookupEnv,
      symName_0, symName_1, symName_2, symName_3, symName_4]
    by_cases h : a - b = 0 <;> simp [h]
  · simp [eqWitness, lookupEnv, symName_0, symName_1]
    by_cases h : a - b = 0
    · simp [h]
      exact sub_eq_zero.mp h
    · simp [h]
      exact sub_ne_zero.mp h

theorem linear_is_flattened : ∀ e : Expression, e.is_linear = true → e.is_flattened = true := by
  intro e
  induction e with
  | NumberLiteral n => simp [Expression.is_linear, Expression.is_flattened]
  | VariableReference v => simp [Expression.is_linear, Expression.is_flattened]
  | Add l r ihl ihr =>
    simp [Expression.is_linear, Expression.is_flattened]
    intro hl hr
    exact ⟨ihl hl, ihr hr⟩
  | Sub l r ihl ihr =>
    simp [Expression.is_linear, Expression.is_flattened]
    intro hl hr
    exact ⟨ihl hl, ihr hr⟩
  | Mult l r ihl ihr => simp [Expression.is_linear]
  | Div l r ihl ihr => simp [Expression.is_linear]
  | Pow l r ihl ihr => simp [Expression.is_linear]
  | IfElse ck cl cr t a ih1 ih2 ih3 ih4 => simp [Expression.is_linear]

theorem flattenExprF_flattened (fuel : Nat) (f : Flattener) (stmts : List Statement) :
    ∀ e : Expression, e.is_flattened = true →
      flattenExprF (fuel + 1) f stmts e = Except.ok (f, stmts, e) := by
  intro e he
  cases e with
  | NumberLiteral n => rfl
  | VariableReference v => rfl
  | Add l r => simp [flattenExprF, he]
  | Sub l r => simp [flattenExprF, he]
  | Mult l r => simp [flattenExprF, he]
  | Div l r => simp [flattenExprF, he]
  | Pow l r => simp [Expression.is_flattened] at he
  | IfElse ck cl cr t a => simp [Expression.is_flattened] at he

theorem exprFuel_pos : ∀ e : Expression, 0 < exprFuel e := by
  intro e
  cases e <;> simp [exprFuel]

theorem flatten_expression_flattened (f : Flattener) (stmts : List Statement)
    (e : Expression) (he : e.is_flattened = true) :
    flatten_expression f stmts e = Except.ok (f, stmts, e) := by
  unfold flatten_expression
  have h1 : exprFuel e = (exprFuel e - 1) + 1 := by
    have := exprFuel_pos e
    omega
  rw [h1]
  exact flattenExprF_flattened _ f stmts e he

theorem flatten_expression_linear (f : Flattener) (stmts : List Statement)
    (e : Expression) (he : e.is_linear = true) :
    flatten_expression f stmts e = Except.ok (f, stmts, e) :=
  flatten_expression_flattened f stmts e (linear_is_flattened e he)

theorem apply_substitution_nil : ∀ e : Expression, e.apply_substitution [] = e := by
  intro e
  induction e with
  | NumberLiteral n => rfl
  | VariableReference v => rfl
  | Add l r ihl ihr => simp [Expression.apply_substitution, ihl, ihr]
  | Sub l r ihl ihr => simp [Expression.apply_substitution, ihl, ihr]
  | Mult l r ihl ihr => simp [Expression.apply_substitution, ihl, ihr]
  | Div l r ihl ihr => simp [Expression.apply_substitution, ihl, ihr]
  | Pow l r ihl ihr => simp [Expression.apply_substitution, ihl, ihr]
  | IfElse ck cl cr t a ih1 ih2 ih3 ih4 =>
    simp [Expression.apply_substitution, ih1, ih2, ih3, ih4]

/-- C9: the deliberate Mult/Div asymmetry of `flatten_expression`.  When
the `Mult` arm flattens `(x - y) * (z * z)`, the affine but `Sub`-shaped
left operand is still bound to a fresh variable via an appended
`Definition` (and the non-affine right operand is materialized as always);
when the `Div` arm flattens `(x - y) / (z * z)`, the same `Sub`-shaped
affine operand is used directly inline.  Stated for every flattener state
and every variable-name choice. -/
theorem C9_mult_div_sub_asymmetry (f : Flattener) (stmts : List Statement) (x y z : String) :
    flatten_expression f stmts
      (Expression.Mult
        (Expression.Sub (Expression.VariableReference x) (Expression.VariableReference y))
        (Expression.Mult (Expression.VariableReference z) (Expression.VariableReference z))) =
      Except.ok (f.bump.bump,
        stmts ++ [Statement.Definition (symName f.next_var_idx)
            (Expression.Sub (Expression.VariableReference x) (Expression.VariableReference y)),
          Statement.Definition (symName (f.next_var_idx + 1))
            (Expression.Mult (Expression.VariableReference z) (Expression.VariableReference z))],
        Expression.Mult (Expression.VariableReference (symName f.next_var_idx))
          (Expression.VariableReference (symName (f.next_var_idx + 1))))
    ∧ flatten_expression f stmts
      (Expression.Div
        (Expression.Sub (Expression.VariableReference x) (Expression.VariableReference y))
        (Expression.Mult (Expression.VariableReference z) (Expression.VariableReference z))) =
      Except.ok (f.bump,
        stmts ++ [Statement.Definition (symName f.next_var_idx)
            (Expression.Mult (Expression.VariableReference z) (Expression.VariableReference z))],
        Expression.Div
          (Expression.Sub (Expression.VariableReference x) (Expression.VariableReference y))
          (Expression.VariableReference (symName f.next_var_idx))) := by
  constructor
  · simp [flatten_expression, exprFuel, flattenExprF, Expression.is_flattened,
      Expression.is_linear, bindLinear, bindLinearMult, materialize, Flattener.bump]
  · simp [flatten_expression, exprFuel, flattenExprF, Expression.is_flattened,
      Expression.is_linear, bindLinear, bindLinearMult, materialize, Flattener.bump]

/-- C7: dispatch of `ConstraintEquality` statements.  After substitution,
if the first side is affine and the second is not, the first side is kept
as-is and the second is flattened, and the resulting constraint is
appended; symmetrically if only the second side is affine; if neither side
is affine, processing the statement fails with `UnresolvableEquality`, and
a program containing such a statement fails as a whole. -/
theorem C7_constraint_equality_dispatch :
    (∀ (f : Flattener) (stmts : List Statement) (e1 e2 : Expression)
        (f2 : Flattener) (s2 : List Statement) (r : Expression),
      (e1.apply_substitution f.substitution).is_linear = true →
      (e2.apply_substitution f.substitution).is_linear = false →
      flatten_expression f stmts (e2.apply_substitution f.substitution) = Except.ok (f2, s2, r) →
      flatten_statement f stmts (Statement.Condition e1 e2) =
        Except.ok (f2, s2 ++ [Statement.Condition (e1.apply_substitution f.substitution) r]))
    ∧ (∀ (f : Flattener) (stmts : List Statement) (e1 e2 : Expression)
        (f2 : Flattener) (s2 : List Statement) (r : Expression),
      (e1.apply_substitution f.substitution).is_linear = false →
      (e2.apply_substitution f.substitution).is_linear = true →
      flatten_expression f stmts (e1.apply_substitution f.substitution) = Except.ok (f2, s2, r) →
      flatten_statement f stmts (Statement.Condition e1 e2) =
        Except.ok (f2, s2 ++ [Statement.Condition (e2.apply_substitution f.substitution) r]))
    ∧ (∀ (f : Flattener) (stmts : List Statement) (e1 e2 : Expression),
      (e1.apply_substitution f.substitution).is_linear = false →
      (e2.apply_substitution f.substitution).is_linear = false →
      flatten_statement f stmts (Statement.Condition e1 e2) =
        Except.error FlattenError.UnresolvableEquality)
    ∧ (∀ (bits : Nat) (id : String) (args : List String) (e1 e2 : Expression),
      e1.is_linear = false → e2.is_linear = false →
      (Flattener.new bits).flatten_program ⟨id, args, [Statement.Condition e1 e2]⟩ =
        Except.error FlattenError.UnresolvableEquality) := by
  refine ⟨?_, ?_, ?_, ?_⟩
  · intro f stmts e1 e2 f2 s2 r h1 h2 hf
    simp [flatten_statement, h1, hf]
  · intro f stmts e1 e2 f2 s2 r h1 h2 hf
    simp [flatten_statement, h1, h2, hf]
  · intro f stmts e1 e2 h1 h2
    simp [flatten_statement, h1, h2]
  · intro bits id args e1 e2 h1 h2
    simp [Flattener.flatten_program, flattenStmtsFold, flatten_statement,
      apply_substitution_nil, Flattener.new, h1, h2]

/-- Witness for C7: concrete instantiations of all four conjuncts with
`a` affine and `a * a` non-affine. -/
theorem C7_constraint_equality_dispatch_witness :
    flatten_statement (Flattener.new 4) []
      (Statement.Condition (Expression.VariableReference ("a"))
        (Expression.Mult (Expression.VariableReference ("a"))
          (Expression.VariableReference ("a")))) =
      Except.ok (Flattener.new 4,
        [Statement.Condition (Expression.VariableReference ("a"))
          (Expression.Mult (Expression.VariableReference ("a"))
            (Expression.VariableReference ("a")))])
    ∧ flatten_statement (Flattener.new 4) []
      (Statement.Condition
        (Expression.Mult (Expression.VariableReference ("a"))
          (Expression.VariableReference ("a")))
        (Expression.VariableReference ("a"))) =
      Except.ok (Flattener.new 4,
        [Statement.Condition (Expression.VariableReference ("a"))
          (Expression.Mult (Expression.VariableReference ("a"))
            (Expression.VariableReference ("a")))])
    ∧ flatten_statement (Flattener.new 4) []
      (Statement.Condition
        (Expression.Div (Expression.VariableReference ("a"))
          (Expression.Mult (Expression.VariableReference ("a"))
            (Expression.VariableReference ("a"))))
        (Expression.Div (Expression.VariableReference ("a"))
          (Expression.Mult (Expression.VariableReference ("a"))
            (Expression.VariableReference ("a"))))) =
      Except.error FlattenError.UnresolvableEquality
    ∧ (Flattener.new 4).flatten_program ⟨("main"), [],
        [Statement.Condition
          (Expression.Div (Expression.VariableReference ("a"))
            (Expression.Mult (Expression.VariableReference ("a"))
              (Expression.VariableReference ("a"))))
          (Expression.Div (Expression.VariableReference ("a"))
            (Expression.Mult (Expression.VariableReference ("a"))
              (Expression.VariableReference ("a"))))]⟩ =
      Except.error FlattenError.UnresolvableEquality :=
  ⟨C7_constraint_equality_dispatch.1 (Flattener.new 4) [] _ _ (Flattener.new 4) [] _
      (by rfl) (by rfl) (by rfl),
   C7_constraint_equality_dispatch.2.1 (Flattener.new 4) [] _ _ (Flattener.new 4) [] _
      (by rfl) (by rfl) (by rfl),
   C7_constraint_equality_dispatch.2.2.1 (Flattener.new 4) [] _ _ (by rfl) (by rfl),
   C7_constraint_equality_dispatch.2.2.2 4 ("main") [] _ _ (by rfl) (by rfl)⟩

/-- C10: when both sides of a `ConstraintEquality` are affine after
substitution, the driver does not fail: it keeps the first (left) side
verbatim as the unflattened side, flattens the (already affine, hence
unchanged) second side, and appends the constraint; a whole program made
of such a statement flattens successfully. -/
theorem C10_both_affine_keeps_left :
    (∀ (f : Flattener) (stmts : List Statement) (e1 e2 : Expression),
      (e1.apply_substitution f.substitution).is_linear = true →
      (e2.apply_substitution f.substitution).is_linear = true →
      flatten_statement f stmts (Statement.Condition e1 e2) =
        Except.ok (f, stmts ++ [Statement.Condition (e1.apply_substitution f.substitution)
          (e2.apply_substitution f.substitution)]))
    ∧ (∀ (bits : Nat) (id : String) (args : List String) (e1 e2 : Expression),
      e1.is_linear = true → e2.is_linear = true →
      (Flattener.new bits).flatten_program ⟨id, args, [Statement.Condition e1 e2]⟩ =
        Except.ok (⟨bits, [], [], 0⟩, ⟨id, args, [Statement.Condition e1 e2]⟩)) := by
  constructor
  · intro f stmts e1 e2 h1 h2
    simp [flatten_statement, h1, h2,
      flatten_expression_linear f stmts _ h2]
  · intro bits id args e1 e2 h1 h2
    simp [Flattener.flatten_program, flattenStmtsFold, flatten_statement,
      apply_substitution_nil, Flattener.new, h1, h2,
      flatten_expression_linear ⟨bits, [], [], 0⟩ [] _ h2]

/-- Witness for C10: both conjuncts at a concrete constraint `a = 3`. -/
theorem C10_both_affine_keeps_left_witness :
    flatten_statement (Flattener.new 4) []
      (Statement.Condition (Expression.VariableReference ("a")) (Expression.NumberLiteral 3)) =
      Except.ok (Flattener.new 4,
        [Statement.Condition (Expression.VariableReference ("a")) (Expression.NumberLiteral 3)])
    ∧ (Flattener.new 4).flatten_program ⟨("main"), [],
        [Statement.Condition (Expression.VariableReference ("a")) (Expression.NumberLiteral 3)]⟩ =
      Except.ok (⟨4, [], [], 0⟩, ⟨("main"), [],
        [Statement.Condition (Expression.VariableReference ("a")) (Expression.NumberLiteral 3)]⟩) :=
  ⟨C10_both_affine_keeps_left.1 (Flattener.new 4) [] _ _ (by rfl) (by rfl),
   C10_both_affine_keeps_left.2 4 ("main") [] _ _ (by rfl) (by rfl)⟩

theorem len_le_concatAll : ∀ (l : List String) (s : String), s ∈ l →
    s.length ≤ (concatAll l).length := by
  intro l
  induction l with
  | nil => intro s hs; cases hs
  | cons a rest ih =>
    intro s hs
    simp [concatAll]
    cases hs with
    | head => omega
    | tail _ hmem => have := ih s hmem; omega

theorem freshFallback_not_mem (vars : List String) (name : String) :
    freshFallback vars name ∉ vars := by
  intro hmem
  have hle := len_le_concatAll vars _ hmem
  have h1 : ("_" : String).length = 1 := rfl
  simp [freshFallback, h1] at hle
  omega

theorem useVariableLoop_fresh (vars : List String) (name : String) :
    ∀ (fuel i : Nat) (cand : String),
      (useVariableLoop vars name fuel i cand).1 ∉ vars := by
  intro fuel
  induction fuel with
  | zero =>
    intro i cand
    simp [useVariableLoop]
    exact freshFallback_not_mem vars name
  | succ fuel ih =>
    intro i cand
    by_cases hm : cand ∈ vars
    · simp [useVariableLoop, hm]
      exact ih (i + 1) (name ++ "_" ++ toString i)
    · simp [useVariableLoop, hm]

theorem mem_insertSet (s : List String) (x : String) : x ∈ insertSet s x := by
  by_cases h : x ∈ s <;> simp [insertSet, h]

/-- C5 amended: freshness of the renaming step.  `use_variable` always
returns a name that is not yet in the used-name set (the probe loop's normal
exit returns an unused candidate, and its unreachable fuel fallback is a
name longer than every used name) and records the returned name as used.
Global uniqueness of `Definition` targets fails only because the gadget
statements bypass the renaming step — see the counterexample, where the
`Lt` gadget defines its diff symbol twice. -/
theorem C5_use_variable_fresh (f : Flattener) (name : String) :
    (f.vars.contains ((f.use_variable name).1)) = false
    ∧ (((f.use_variable name).2.vars.contains ((f.use_variable name).1)) = true) := by
  have hfresh := useVariableLoop_fresh f.vars name (f.vars.length + 1) 0 name
  cases hl : useVariableLoop f.vars name (f.vars.length + 1) 0 name with
  | mk nn i =>
    rw [hl] at hfresh
    simp at hfresh
    constructor
    · simp [Flattener.use_variable, hl]
      split <;> (try split) <;> simp [hfresh]
    · simp [Flattener.use_variable, hl]
      split <;> (try split) <;> simp [mem_insertSet]

/-- C8 counterexample: a hint statement is passed through the driver
verbatim, so an input hint whose expression has a `Mult` operand that is
itself a `Mult` survives into the output of a successful `flatten_program`
run, violating the claimed affine-closure of every output statement. -/
theorem C8_compiler_passthrough_counterexample :
    (Flattener.new 4).flatten_program progHintMult =
      Except.ok (⟨4, [], [], 0⟩, ⟨("main"), [("a")],
        [Statement.Compiler ("h")
          (Expression.Mult
            (Expression.Mult (Expression.VariableReference ("a"))
              (Expression.VariableReference ("a")))
            (Expression.VariableReference ("a")))]⟩)
    ∧ mdOperandsLinear
        (Expression.Mult
          (Expression.Mult (Expression.VariableReference ("a"))
            (Expression.VariableReference ("a")))
          (Expression.VariableReference ("a"))) = false :=
  ⟨rfl, rfl⟩
theorem linear_mdOL : ∀ e : Expression, e.is_linear = true → mdOperandsLinear e = true := by
  intro e
  induction e with
  | NumberLiteral n => simp [mdOperandsLinear]
  | VariableReference v => simp [mdOperandsLinear]
  | Add l r ihl ihr =>
    intro h
    simp [Expression.is_linear] at h
    simp [mdOperandsLinear, ihl h.1, ihr h.2]
  | Sub l r ihl ihr =>
    intro h
    simp [Expression.is_linear] at h
    simp [mdOperandsLinear, ihl h.1, ihr h.2]
  | Mult l r ihl ihr => simp [Expression.is_linear]
  | Div l r ihl ihr => simp [Expression.is_linear]
  | Pow l r ihl ihr => simp [Expression.is_linear]
  | IfElse ck cl cr t a ih1 ih2 ih3 ih4 => simp [Expression.is_linear]

theorem flattened_mdOL : ∀ e : Expression, e.is_flattened = true → mdOperandsLinear e = true := by
  intro e
  induction e with
  | NumberLiteral n => simp [mdOperandsLinear]
  | VariableReference v => simp [mdOperandsLinear]
  | Add l r ihl ihr =>
    intro h
    simp [Expression.is_flattened] at h
    simp [mdOperandsLinear, ihl h.1, ihr h.2]
  | Sub l r ihl ihr =>
    intro h
    simp [Expression.is_flattened] at h
    simp [mdOperandsLinear, ihl h.1, ihr h.2]
  | Mult l r ihl ihr => simp [Expression.is_flattened, mdOperandsLinear]
  | Div l r ihl ihr => simp [Expression.is_flattened, mdOperandsLinear]
  | Pow l r ihl ihr => simp [Expression.is_flattened]
  | IfElse ck cl cr t a ih1 ih2 ih3 ih4 => simp [Expression.is_flattened]

theorem bindLinear_stmts_closed (f : Flattener) (stmts : List Statement) (e : Expression)
    (hs : stmts.all stmtClosed = true) (he : mdOperandsLinear e = true) :
    ((bindLinear f stmts e).2.1).all stmtClosed = true := by
  simp only [bindLinear]
  split
  · exact hs
  · simp only [materialize]
    simp [List.all_append, stmtClosed, he]
    intro x hx
    have := List.all_eq_true.mp hs x hx
    simpa using this

theorem bindLinear_res_linear (f : Flattener) (stmts : List Statement) (e : Expression) :
    ((bindLinear f stmts e).2.2).is_linear = true := by
  simp only [bindLinear]
  split
  · next h => exact h
  · simp [materialize, Expression.is_linear]

theorem bindLinearMult_stmts_closed (f : Flattener) (stmts : List Statement) (e : Expression)
    (hs : stmts.all stmtClosed = true) (he : mdOperandsLinear e = true) :
    ((bindLinearMult f stmts e).2.1).all stmtClosed = true := by
  simp only [bindLinearMult]
  split
  · split
    · simp only [materialize]
      simp [List.all_append, stmtClosed, he]
      intro x hx
      have := List.all_eq_true.mp hs x hx
      simpa using this
    · exact hs
  · simp only [materialize]
    simp [List.all_append, stmtClosed, he]
    intro x hx
    have := List.all_eq_true.mp hs x hx
    simpa using this

theorem bindLinearMult_res_linear (f : Flattener) (stmts : List Statement) (e : Expression) :
    ((bindLinearMult f stmts e).2.2).is_linear = true := by
  simp only [bindLinearMult]
  split
  · next h =>
    split
    · simp [materialize, Expression.is_linear]
    · exact h
  · simp [materialize, Expression.is_linear]

theorem ltRecompose_mdOL (c : String) (bits : Nat) :
    mdOperandsLinear (ltRecompose c bits) = true := by
  simp only [ltRecompose]
  have base : ∀ (l : List Nat) (acc : Expression), mdOperandsLinear acc = true →
      mdOperandsLinear (l.foldl (fun acc i =>
        Expression.Add acc (Expression.Add
          (Expression.Mult (Expression.VariableReference (bitName c (2 * i)))
            (Expression.NumberLiteral ((2 : Rat) ^ i)))
          (Expression.Mult (Expression.VariableReference (bitName c (2 * i + 1)))
            (Expression.NumberLiteral ((2 : Rat) ^ i))))) acc) = true := by
    intro l
    induction l with
    | nil => intro acc h; exact h
    | cons hd tl ih =>
      intro acc h
      simp only [List.foldl]
      exact ih _ (by simp [mdOperandsLinear, Expression.is_linear, h])
  simp [mdOperandsLinear, Expression.is_linear]
  exact base _ _ (by simp [mdOperandsLinear, Expression.is_linear])

theorem all_stmtClosed_append (s1 s2 : List Statement)
    (h1 : s1.all stmtClosed = true) (h2 : s2.all stmtClosed = true) :
    (s1 ++ s2).all stmtClosed = true := by
  simp [List.all_append, h1, h2]

theorem ltGadget_closed (f : Flattener) (stmts : List Statement) (lf rf : Expression)
    (hs : stmts.all stmtClosed = true)
    (hl : mdOperandsLinear lf = true) (hr : mdOperandsLinear rf = true) :
    ((ltGadget f stmts lf rf).2.1).all stmtClosed = true := by
  have h := ltRecompose_mdOL (symName f.bump.bump.next_var_idx) f.bump.bump.bump.bits
  simp [ltRecompose, mdOperandsLinear, Expression.is_linear] at h
  simp only [ltGadget]
  simp [List.all_append, stmtClosed, hl, hr, mdOperandsLinear,
    Expression.is_linear, List.all_map, Function.comp, h]
  intro x hx
  have := List.all_eq_true.mp hs x hx
  simpa using this

theorem eqGadget_closed (f : Flattener) (stmts : List Statement)
    (nc nd n1d ncd nw : String) (c : Expression)
    (hs : stmts.all stmtClosed = true) (hc : mdOperandsLinear c = true) :
    ((eqGadget f stmts nc nd n1d ncd nw c).2.1).all stmtClosed = true := by
  simp only [eqGadget]
  refine all_stmtClosed_append _ _ hs ?_
  simp [stmtClosed, mdOperandsLinear, Expression.is_linear, hc]

theorem flattenExprF_closed : ∀ (fuel : Nat) (f : Flattener) (stmts : List Statement)
    (e : Expression) (f2 : Flattener) (stmts2 : List Statement) (res : Expression),
    flattenExprF fuel f stmts e = Except.ok (f2, stmts2, res) →
    stmts.all stmtClosed = true →
    stmts2.all stmtClosed = true ∧ mdOperandsLinear res = true := by
  intro fuel
  induction fuel with
  | zero =>
    intro f stmts e f2 stmts2 res h hs
    simp [flattenExprF] at h
  | succ fuel ih =>
    intro f stmts e f2 stmts2 res h hs
    cases e with
    | NumberLiteral n =>
      simp [flattenExprF] at h
      obtain ⟨rfl, rfl, rfl⟩ := h
      exact ⟨hs, by simp [mdOperandsLinear]⟩
    | VariableReference v =>
      simp [flattenExprF] at h
      obtain ⟨rfl, rfl, rfl⟩ := h
      exact ⟨hs, by simp [mdOperandsLinear]⟩
    | Add l r =>
      by_cases hfl : (Expression.Add l r).is_flattened = true
      · simp only [flattenExprF, hfl, if_true] at h
        simp at h
        obtain ⟨rfl, rfl, rfl⟩ := h
        exact ⟨hs, flattened_mdOL _ hfl⟩
      · simp only [flattenExprF] at h
        rw [if_neg (by simpa using hfl)] at h
        cases h1 : flattenExprF fuel f stmts l with
        | error err => simp [h1] at h
        | ok v =>
          obtain ⟨f1, s1, lf⟩ := v
          cases h2 : flattenExprF fuel f1 s1 r with
          | error err => simp [h1, h2] at h
          | ok w =>
            obtain ⟨fr, sr, rf⟩ := w
            obtain ⟨ihs1, ihl⟩ := ih f stmts l f1 s1 lf h1 hs
            obtain ⟨ihs2, ihr⟩ := ih f1 s1 r fr sr rf h2 ihs1
            cases hb1 : bindLinear fr sr lf with
            | mk fb1 rest1 =>
              obtain ⟨sb1, nl⟩ := rest1
              cases hb2 : bindLinear fb1 sb1 rf with
              | mk fb2 rest2 =>
                obtain ⟨sb2, nr⟩ := rest2
                simp [h1, h2, hb1, hb2] at h
                obtain ⟨rfl, rfl, rfl⟩ := h
                have hc1 := bindLinear_stmts_closed fr sr lf ihs2 ihl
                rw [hb1] at hc1
                have hc2 := bindLinear_stmts_closed fb1 sb1 rf hc1 ihr
                rw [hb2] at hc2
                have hn1 := bindLinear_res_linear fr sr lf
                rw [hb1] at hn1
                have hn2 := bindLinear_res_linear fb1 sb1 rf
                rw [hb2] at hn2
                dsimp only at hc1 hc2 hn1 hn2
                exact ⟨hc2, by simp [mdOperandsLinear, linear_mdOL _ hn1, linear_mdOL _ hn2]⟩
    | Sub l r =>
      by_cases hfl : (Expression.Sub l r).is_flattened = true
      · simp only [flattenExprF, hfl, if_true] at h
        simp at h
        obtain ⟨rfl, rfl, rfl⟩ := h
        exact ⟨hs, flattened_mdOL _ hfl⟩
      · simp only [flattenExprF] at h
        rw [if_neg (by simpa using hfl)] at h
        cases h1 : flattenExprF fuel f stmts l with
        | error err => simp [h1] at h
        | ok v =>
          obtain ⟨f1, s1, lf⟩ := v
          cases h2 : flattenExprF fuel f1 s1 r with
          | error err => simp [h1, h2] at h
          | ok w =>
            obtain ⟨fr, sr, rf⟩ := w
            obtain ⟨ihs1, ihl⟩ := ih f stmts l f1 s1 lf h1 hs
            obtain ⟨ihs2, ihr⟩ := ih f1 s1 r fr sr rf h2 ihs1
            cases hb1 : bindLinear fr sr lf with
            | mk fb1 rest1 =>
              obtain ⟨sb1, nl⟩ := rest1
              cases hb2 : bindLinear fb1 sb1 rf with
              | mk fb2 rest2 =>
                obtain ⟨sb2, nr⟩ := rest2
                simp [h1, h2, hb1, hb2] at h
                obtain ⟨rfl, rfl, rfl⟩ := h
                have hc1 := bindLinear_stmts_closed fr sr lf ihs2 ihl
                rw [hb1] at hc1
                have hc2 := bindLinear_stmts_closed fb1 sb1 rf hc1 ihr
                rw [hb2] at hc2
                have hn1 := bindLinear_res_linear fr sr lf
                rw [hb1] at hn1
                have hn2 := bindLinear_res_linear fb1 sb1 rf
                rw [hb2] at hn2
                dsimp only at hc1 hc2 hn1 hn2
                exact ⟨hc2, by simp [mdOperandsLinear, linear_mdOL _ hn1, linear_mdOL _ hn2]⟩
    | Mult l r =>
      by_cases hfl : (Expression.Mult l r).is_flattened = true
      · simp only [flattenExprF, hfl, if_true] at h
        simp at h
        obtain ⟨rfl, rfl, rfl⟩ := h
        exact ⟨hs, flattened_mdOL _ hfl⟩
      · simp only [flattenExprF] at h
        rw [if_neg (by simpa using hfl)] at h
        cases h1 : flattenExprF fuel f stmts l with
        | error err => simp [h1] at h
        | ok v =>
          obtain ⟨f1, s1, lf⟩ := v
          cases h2 : flattenExprF fuel f1 s1 r with
          | error err => simp [h1, h2] at h
          | ok w =>
            obtain ⟨fr, sr, rf⟩ := w
            obtain ⟨ihs1, ihl⟩ := ih f stmts l f1 s1 lf h1 hs
            obtain ⟨ihs2, ihr⟩ := ih f1 s1 r fr sr rf h2 ihs1
            cases hb1 : bindLinearMult fr sr lf with
            | mk fb1 rest1 =>
              obtain ⟨sb1, nl⟩ := rest1
              cases hb2 : bindLinearMult fb1 sb1 rf with
              | mk fb2 rest2 =>
                obtain ⟨sb2, nr⟩ := rest2
                simp [h1, h2, hb1, hb2] at h
                obtain ⟨rfl, rfl, rfl⟩ := h
                have hc1 := bindLinearMult_stmts_closed fr sr lf ihs2 ihl
                rw [hb1] at hc1
                have hc2 := bindLinearMult_stmts_closed fb1 sb1 rf hc1 ihr
                rw [hb2] at hc2
                have hn1 := bindLinearMult_res_linear fr sr lf
                rw [hb1] at hn1
                have hn2 := bindLinearMult_res_linear fb1 sb1 rf
                rw [hb2] at hn2
                dsimp only at hc1 hc2 hn1 hn2
                exact ⟨hc2, by simp [mdOperandsLinear, hn1, hn2]⟩
    | Div l r =>
      by_cases hfl : (Expression.Div l r).is_flattened = true
      · simp only [flattenExprF, hfl, if_true] at h
        simp at h
        obtain ⟨rfl, rfl, rfl⟩ := h
        exact ⟨hs, flattened_mdOL _ hfl⟩
      · simp only [flattenExprF] at h
        rw [if_neg (by simpa using hfl)] at h
        cases h1 : flattenExprF fuel f stmts l with
        | error err => simp [h1] at h
        | ok v =>
          obtain ⟨f1, s1, lf⟩ := v
          cases h2 : flattenExprF fuel f1 s1 r with
          | error err => simp [h1, h2] at h
          | ok w =>
            obtain ⟨fr, sr, rf⟩ := w
            obtain ⟨ihs1, ihl⟩ := ih f stmts l f1 s1 lf h1 hs
            obtain ⟨ihs2, ihr⟩ := ih f1 s1 r fr sr rf h2 ihs1
            cases hb1 : bindLinear fr sr lf with
            | mk fb1 rest1 =>
              obtain ⟨sb1, nl⟩ := rest1
              cases hb2 : bindLinear fb1 sb1 rf with
              | mk fb2 rest2 =>
                obtain ⟨sb2, nr⟩ := rest2
                simp [h1, h2, hb1, hb2] at h
                obtain ⟨rfl, rfl, rfl⟩ := h
                have hc1 := bindLinear_stmts_closed fr sr lf ihs2 ihl
                rw [hb1] at hc1
                have hc2 := bindLinear_stmts_closed fb1 sb1 rf hc1 ihr
                rw [hb2] at hc2
                have hn1 := bindLinear_res_linear fr sr lf
                rw [hb1] at hn1
                have hn2 := bindLinear_res_linear fb1 sb1 rf
                rw [hb2] at hn2
                dsimp only at hc1 hc2 hn1 hn2
                exact ⟨hc2, by simp [mdOperandsLinear, hn1, hn2]⟩
    | Pow base exp =>
      cases exp with
      | NumberLiteral x =>
        by_cases hx1 : 1 < x
        · cases base with
          | VariableReference var =>
            by_cases hx2 : 2 < x
            · simp only [flattenExprF, hx1, hx2, if_true] at h
              cases h1 : flattenExprF fuel f stmts
                  (Expression.Pow (Expression.VariableReference var)
                    (Expression.NumberLiteral (x - 1))) with
              | error err => simp [h1] at h
              | ok v =>
                obtain ⟨f1, s1, tmp⟩ := v
                simp [h1] at h
                obtain ⟨rfl, rfl, rfl⟩ := h
                obtain ⟨ihs1, ihtmp⟩ := ih f stmts _ f1 s1 tmp h1 hs
                constructor
                · exact all_stmtClosed_append _ _ ihs1 (by simp [stmtClosed, ihtmp])
                · simp [mdOperandsLinear, Expression.is_linear]
            · simp only [flattenExprF, hx1, hx2, if_true, if_false] at h
              simp at h
              obtain ⟨rfl, rfl, rfl⟩ := h
              exact ⟨hs, by simp [mdOperandsLinear, Expression.is_linear]⟩
          | NumberLiteral v =>
            simp only [flattenExprF, hx1, if_true] at h
            simp at h
            obtain ⟨rfl, rfl, rfl⟩ := h
            exact ⟨hs, by simp [mdOperandsLinear, Expression.is_linear]⟩
          | Add bl br => simp [flattenExprF, hx1] at h
          | Sub bl br => simp [flattenExprF, hx1] at h
          | Mult bl br => simp [flattenExprF, hx1] at h
          | Div bl br => simp [flattenExprF, hx1] at h
          | Pow bl br => simp [flattenExprF, hx1] at h
          | IfElse ck cl cr t a => simp [flattenExprF, hx1] at h
        · simp [flattenExprF, hx1] at h
      | VariableReference v => simp [flattenExprF] at h
      | Add el er => simp [flattenExprF] at h
      | Sub el er => simp [flattenExprF] at h
      | Mult el er => simp [flattenExprF] at h
      | Div el er => simp [flattenExprF] at h
      | Pow el er => simp [flattenExprF] at h
      | IfElse ck cl cr t a => simp [flattenExprF] at h
    | IfElse ck cl cr t a =>
      cases ck with
      | Lt =>
        simp only [flattenExprF] at h
        cases h1 : flattenExprF fuel f stmts cl with
        | error err => simp [h1] at h
        | ok v =>
          obtain ⟨f1, s1, clF⟩ := v
          cases h2 : flattenExprF fuel f1 s1 cr with
          | error err => simp [h1, h2] at h
          | ok w =>
            obtain ⟨fr, sr, crF⟩ := w
            obtain ⟨ihs1, ihcl⟩ := ih f stmts cl f1 s1 clF h1 hs
            obtain ⟨ihs2, ihcr⟩ := ih f1 s1 cr fr sr crF h2 ihs1
            cases hg : ltGadget fr sr clF crF with
            | mk fg rest =>
              obtain ⟨sg, ct, cf⟩ := rest
              simp only [h1, h2, hg] at h
              have hgc := ltGadget_closed fr sr clF crF ihs2 ihcl ihcr
              rw [hg] at hgc
              dsimp only at hgc
              exact ih fg sg _ f2 stmts2 res h hgc
      | Eq =>
        simp only [flattenExprF] at h
        cases hal : eqAlloc f with
        | mk fa rest =>
          obtain ⟨nc, nd, n1d, ncd, nw⟩ := rest
          cases h1 : flattenExprF fuel fa stmts (Expression.Sub cl cr) with
          | error err => simp [hal, h1] at h
          | ok v =>
            obtain ⟨f1, s1, cF⟩ := v
            obtain ⟨ihs1, ihc⟩ := ih fa stmts _ f1 s1 cF h1 hs
            cases hg : eqGadget f1 s1 nc nd n1d ncd nw cF with
            | mk fg rest2 =>
              obtain ⟨sg, ct, cf⟩ := rest2
              simp only [hal, h1, hg] at h
              have hgc := eqGadget_closed f1 s1 nc nd n1d ncd nw cF ihs1 ihc
              rw [hg] at hgc
              dsimp only at hgc
              exact ih fg sg _ f2 stmts2 res h hgc

theorem flatten_statement_closed (f : Flattener) (stmts : List Statement) (s : Statement)
    (f2 : Flattener) (stmts2 : List Statement)
    (h : flatten_statement f stmts s = Except.ok (f2, stmts2))
    (hs : stmts.all stmtClosed = true) :
    stmts2.all stmtClosed = true := by
  cases s with
  | Return e =>
    cases h1 : flatten_expression f stmts (e.apply_substitution f.substitution) with
    | error err => simp [flatten_statement, h1] at h
    | ok v =>
      obtain ⟨f1, s1, rhs⟩ := v
      simp [flatten_statement, h1] at h
      obtain ⟨rfl, rfl⟩ := h
      obtain ⟨hc, hm⟩ := flattenExprF_closed _ f stmts _ f1 s1 rhs h1 hs
      exact all_stmtClosed_append _ _ hc (by simp [stmtClosed, hm])
  | Definition id e =>
    cases h1 : flatten_expression f stmts (e.apply_substitution f.substitution) with
    | error err => simp [flatten_statement, h1] at h
    | ok v =>
      obtain ⟨f1, s1, rhs⟩ := v
      simp [flatten_statement, h1] at h
      obtain ⟨rfl, rfl⟩ := h
      obtain ⟨hc, hm⟩ := flattenExprF_closed _ f stmts _ f1 s1 rhs h1 hs
      exact all_stmtClosed_append _ _ hc (by simp [stmtClosed, hm])
  | Condition e1 e2 =>
    by_cases hl1 : (e1.apply_substitution f.substitution).is_linear = true
    · cases h1 : flatten_expression f stmts (e2.apply_substitution f.substitution) with
      | error err => simp [flatten_statement, hl1, h1] at h
      | ok v =>
        obtain ⟨f1, s1, rhs⟩ := v
        simp [flatten_statement, hl1, h1] at h
        obtain ⟨rfl, rfl⟩ := h
        obtain ⟨hc, hm⟩ := flattenExprF_closed _ f stmts _ f1 s1 rhs h1 hs
        exact all_stmtClosed_append _ _ hc
          (by simp [stmtClosed, hm, linear_mdOL _ hl1])
    · by_cases hl2 : (e2.apply_substitution f.substitution).is_linear = true
      · cases h1 : flatten_expression f stmts (e1.apply_substitution f.substitution) with
        | error err => simp [flatten_statement, hl1, hl2, h1] at h
        | ok v =>
          obtain ⟨f1, s1, rhs⟩ := v
          simp [flatten_statement, hl1, hl2, h1] at h
          obtain ⟨rfl, rfl⟩ := h
          obtain ⟨hc, hm⟩ := flattenExprF_closed _ f stmts _ f1 s1 rhs h1 hs
          exact all_stmtClosed_append _ _ hc
            (by simp [stmtClosed, hm, linear_mdOL _ hl2])
      · simp [flatten_statement, hl1, hl2] at h
  | Compiler n e =>
    simp [flatten_statement] at h
    obtain ⟨rfl, rfl⟩ := h
    exact all_stmtClosed_append _ _ hs (by simp [stmtClosed])

theorem flattenStmtsFold_closed : ∀ (l : List Statement) (f : Flattener)
    (stmts : List Statement) (f2 : Flattener) (stmts2 : List Statement),
    flattenStmtsFold f stmts l = Except.ok (f2, stmts2) →
    stmts.all stmtClosed = true →
    stmts2.all stmtClosed = true := by
  intro l
  induction l with
  | nil =>
    intro f stmts f2 stmts2 h hs
    simp [flattenStmtsFold] at h
    obtain ⟨rfl, rfl⟩ := h
    exact hs
  | cons s rest ih =>
    intro f stmts f2 stmts2 h hs
    cases h1 : flatten_statement f stmts s with
    | error err => simp [flattenStmtsFold, h1] at h
    | ok v =>
      obtain ⟨f1, s1⟩ := v
      simp [flattenStmtsFold, h1] at h
      exact ih f1 s1 f2 stmts2 h (flatten_statement_closed f stmts s f1 s1 h1 hs)

/-- C8 amended: affine-closure of the flattener output.  For every program
on which `flatten_program` succeeds, every `Mult`/`Div` operand anywhere in
an output `Return`, `Definition` or constraint (`Condition`) statement is a
literal, a variable reference, or an affine Add/Sub combination thereof —
never containing a nested `Mult`, `Div`, `Pow` or conditional-select.
Hint (`Compiler`) statements are exempt (`stmtClosed` holds vacuously for
them): the driver passes input hints through verbatim, which is the
counterexample to the claim as stated. -/
theorem C8_affine_closure_amended (f : Flattener) (p : Prog) (f2 : Flattener) (out : Prog)
    (h : f.flatten_program p = Except.ok (f2, out)) :
    out.statements.all stmtClosed = true := by
  cases hf : flattenStmtsFold ⟨f.bits, [], [], 0⟩ [] p.statements with
  | error err => simp [Flattener.flatten_program, hf] at h
  | ok v =>
    obtain ⟨fr, stmtsr⟩ := v
    simp [Flattener.flatten_program, hf] at h
    obtain ⟨rfl, rfl⟩ := h
    exact flattenStmtsFold_closed p.statements _ [] fr stmtsr hf (by simp)

/-- Witness for C8 amended: the flattening of the reassignment program
succeeds and its output statements are all affine-closed. -/
theorem C8_affine_closure_amended_witness :
    ([Statement.Definition ("x") (Expression.NumberLiteral 1),
      Statement.Definition ("x_0") (Expression.NumberLiteral 2),
      Statement.Definition ("x_1") (Expression.NumberLiteral 3),
      Statement.Return (Expression.VariableReference ("x_1"))] : List Statement).all
      stmtClosed = true :=
  C8_affine_closure_amended (Flattener.new 4) progReassign
    ⟨4, [("x"), ("x_0"), ("x_1"), ("~out")], [(("x"), ("x_0")), (("x_0"), ("x_1"))], 0⟩
    ⟨("main"), [],
      [Statement.Definition ("x") (Expression.NumberLiteral 1),
       Statement.Definition ("x_0") (Expression.NumberLiteral 2),
       Statement.Definition ("x_1") (Expression.NumberLiteral 3),
       Statement.Return (Expression.VariableReference ("x_1"))]⟩ (by rfl)

/-- The ceiling weight used for the `Pow` fuel strictly decreases along the
source's `exponent - 1` recursion while `2 < exponent`. -/
theorem ratWeight_sub_one_lt (x : Rat) (hx : 2 < x) : ratWeight (x - 1) < ratWeight x := by
  unfold ratWeight
  have h1 : ⌈x - 1⌉ = ⌈x⌉ - 1 := by
    simp
  have h2 : (2 : ℤ) < ⌈x⌉ := by
    rw [Int.lt_ceil]
    exact_mod_cast hx
  rw [h1]
  omega

theorem flattenExprF_no_out_of_fuel : ∀ (fuel : Nat) (f : Flattener) (stmts : List Statement)
    (e : Expression), exprFuel e ≤ fuel →
    flattenExprF fuel f stmts e ≠ Except.error FlattenError.OutOfFuel := by
  intro fuel
  induction fuel with
  | zero =>
    intro f stmts e hb
    have := exprFuel_pos e
    omega
  | succ fuel ih =>
    intro f stmts e hb
    cases e with
    | NumberLiteral n => simp [flattenExprF]
    | VariableReference v => simp [flattenExprF]
    | Add l r =>
      have hl_le : exprFuel l ≤ fuel := by
        have := exprFuel_pos r; simp [exprFuel] at hb; omega
      have hr_le : exprFuel r ≤ fuel := by
        have := exprFuel_pos l; simp [exprFuel] at hb; omega
      by_cases hfl : (Expression.Add l r).is_flattened = true
      · simp [flattenExprF, hfl]
      · simp only [flattenExprF]
        rw [if_neg (by simpa using hfl)]
        cases h1 : flattenExprF fuel f stmts l with
        | error err =>
          have hne := ih f stmts l hl_le
          rw [h1] at hne
          simpa using hne
        | ok v =>
          obtain ⟨f1, s1, lf⟩ := v
          cases h2 : flattenExprF fuel f1 s1 r with
          | error err =>
            have hne := ih f1 s1 r hr_le
            rw [h2] at hne
            simp [h1, h2]
            simpa using hne
          | ok w =>
            obtain ⟨fr, sr, rf⟩ := w
            simp [h1, h2]
    | Sub l r =>
      have hl_le : exprFuel l ≤ fuel := by
        have := exprFuel_pos r; simp [exprFuel] at hb; omega
      have hr_le : exprFuel r ≤ fuel := by
        have := exprFuel_pos l; simp [exprFuel] at hb; omega
      by_cases hfl : (Expression.Sub l r).is_flattened = true
      · simp [flattenExprF, hfl]
      · simp only [flattenExprF]
        rw [if_neg (by simpa using hfl)]
        cases h1 : flattenExprF fuel f stmts l with
        | error err =>
          have hne := ih f stmts l hl_le
          rw [h1] at hne
          simpa using hne
        | ok v =>
          obtain ⟨f1, s1, lf⟩ := v
          cases h2 : flattenExprF fuel f1 s1 r with
          | error err =>
            have hne := ih f1 s1 r hr_le
            rw [h2] at hne
            simp [h1, h2]
            simpa using hne
          | ok w =>
            obtain ⟨fr, sr, rf⟩ := w
            simp [h1, h2]
    | Mult l r =>
      have hl_le : exprFuel l ≤ fuel := by
        have := exprFuel_pos r; simp [exprFuel] at hb; omega
      have hr_le : exprFuel r ≤ fuel := by
        have := exprFuel_pos l; simp [exprFuel] at hb; omega
      by_cases hfl : (Expression.Mult l r).is_flattened = true
      · simp [flattenExprF, hfl]
      · simp only [flattenExprF]
        rw [if_neg (by simpa using hfl)]
        cases h1 : flattenExprF fuel f stmts l with
        | error err =>
          have hne := ih f stmts l hl_le
          rw [h1] at hne
          simpa using hne
        | ok v =>
          obtain ⟨f1, s1, lf⟩ := v
          cases h2 : flattenExprF fuel f1 s1 r with
          | error err =>
            have hne := ih f1 s1 r hr_le
            rw [h2] at hne
            simp [h1, h2]
            simpa using hne
          | ok w =>
            obtain ⟨fr, sr, rf⟩ := w
            simp [h1, h2]
    | Div l r =>
      have hl_le : exprFuel l ≤ fuel := by
        have := exprFuel_pos r; simp [exprFuel] at hb; omega
      have hr_le : exprFuel r ≤ fuel := by
        have := exprFuel_pos l; simp [exprFuel] at hb; omega
      by_cases hfl : (Expression.Div l r).is_flattened = true
      · simp [flattenExprF, hfl]
      · simp only [flattenExprF]
        rw [if_neg (by simpa using hfl)]
        cases h1 : flattenExprF fuel f stmts l with
        | error err =>
          have hne := ih f stmts l hl_le
          rw [h1] at hne
          simpa using hne
        | ok v =>
          obtain ⟨f1, s1, lf⟩ := v
          cases h2 : flattenExprF fuel f1 s1 r with
          | error err =>
            have hne := ih f1 s1 r hr_le
            rw [h2] at hne
            simp [h1, h2]
            simpa using hne
          | ok w =>
            obtain ⟨fr, sr, rf⟩ := w
            simp [h1, h2]
    | Pow base exp =>
      cases exp with
      | NumberLiteral x =>
        by_cases hx1 : 1 < x
        · cases base with
          | VariableReference var =>
            by_cases hx2 : 2 < x
            · have hrec_le : exprFuel (Expression.Pow (Expression.VariableReference var)
                  (Expression.NumberLiteral (x - 1))) ≤ fuel := by
                have := ratWeight_sub_one_lt x hx2
                simp [exprFuel] at hb ⊢
                omega
              simp only [flattenExprF, hx1, hx2, if_true]
              cases h1 : flattenExprF fuel f stmts
                  (Expression.Pow (Expression.VariableReference var)
                    (Expression.NumberLiteral (x - 1))) with
              | error err =>
                have hne := ih f stmts _ hrec_le
                rw [h1] at hne
                simp [h1]
                simpa using hne
              | ok v =>
                obtain ⟨f1, s1, tmp⟩ := v
                simp [h1]
            · simp [flattenExprF, hx1, hx2]
          | NumberLiteral v => simp [flattenExprF, hx1]
          | Add bl br => simp [flattenExprF, hx1]
          | Sub bl br => simp [flattenExprF, hx1]
          | Mult bl br => simp [flattenExprF, hx1]
          | Div bl br => simp [flattenExprF, hx1]
          | Pow bl br => simp [flattenExprF, hx1]
          | IfElse ck cl cr t a => simp [flattenExprF, hx1]
        · simp [flattenExprF, hx1]
      | VariableReference v => simp [flattenExprF]
      | Add el er => simp [flattenExprF]
      | Sub el er => simp [flattenExprF]
      | Mult el er => simp [flattenExprF]
      | Div el er => simp [flattenExprF]
      | Pow el er => simp [flattenExprF]
      | IfElse ck cl cr t a => simp [flattenExprF]
    | IfElse ck cl cr t a =>
      have hcl_le : exprFuel cl ≤ fuel := by
        have h1 := exprFuel_pos cr; have h2 := exprFuel_pos t; have h3 := exprFuel_pos a
        simp [exprFuel] at hb; omega
      have hcr_le : exprFuel cr ≤ fuel := by
        have h1 := exprFuel_pos cl; have h2 := exprFuel_pos t; have h3 := exprFuel_pos a
        simp [exprFuel] at hb; omega
      have hsub_le : exprFuel (Expression.Sub cl cr) ≤ fuel := by
        have h2 := exprFuel_pos t; have h3 := exprFuel_pos a
        simp [exprFuel] at hb ⊢; omega
      have hfin_le : ∀ ct cf : String,
          exprFuel (Expression.Add
            (Expression.Mult (Expression.VariableReference ct) t)
            (Expression.Mult (Expression.VariableReference cf) a)) ≤ fuel := by
        intro ct cf
        have h1 := exprFuel_pos cl; have h2 := exprFuel_pos cr
        simp [exprFuel] at hb ⊢; omega
      cases ck with
      | Lt =>
        simp only [flattenExprF]
        cases h1 : flattenExprF fuel f stmts cl with
        | error err =>
          have hne := ih f stmts cl hcl_le
          rw [h1] at hne
          simpa using hne
        | ok v =>
          obtain ⟨f1, s1, clF⟩ := v
          cases h2 : flattenExprF fuel f1 s1 cr with
          | error err =>
            have hne := ih f1 s1 cr hcr_le
            rw [h2] at hne
            simp [h1, h2]
            simpa using hne
          | ok w =>
            obtain ⟨fr, sr, crF⟩ := w
            cases hg : ltGadget fr sr clF crF with
            | mk fg rest =>
              obtain ⟨sg, ct, cf⟩ := rest
              simp only [h1, h2, hg]
              exact ih fg sg _ (hfin_le ct cf)
      | Eq =>
        cases hal : eqAlloc f with
        | mk fa rest =>
          obtain ⟨nc, nd, n1d, ncd, nw⟩ := rest
          simp only [flattenExprF, hal]
          cases h1 : flattenExprF fuel fa stmts (Expression.Sub cl cr) with
          | error err =>
            have hne := ih fa stmts _ hsub_le
            rw [h1] at hne
            simp [h1]
            simpa using hne
          | ok v =>
            obtain ⟨f1, s1, cF⟩ := v
            cases hg : eqGadget f1 s1 nc nd n1d ncd nw cF with
            | mk fg rest2 =>
              obtain ⟨sg, ct, cf⟩ := rest2
              simp only [h1, hg]
              exact ih fg sg _ (hfin_le ct cf)

/-- The wrapper fuel is always sufficient: `flatten_expression` never
returns the model-internal `OutOfFuel` error, so the fueled model agrees
with the always-terminating source on every input. -/
theorem flatten_expression_no_out_of_fuel (f : Flattener) (stmts : List Statement)
    (e : Expression) :
    flatten_expression f stmts e ≠ Except.error FlattenError.OutOfFuel :=
  flattenExprF_no_out_of_fuel (exprFuel e) f stmts e (Nat.le_refl _)
